import Mathlib

/-!
# Adaptive label positioning (bpmn-js)

A shallow embedding of
`lib/features/modeling/behavior/AdaptiveLabelPositioningBehavior.js`.

* JavaScript numbers are modelled as rationals (`ℚ`), so `label.height / 2`
  is exact division; rounding of IEEE doubles is outside the model.
* A JavaScript value that may be `undefined` is an `Option`; a thrown
  `TypeError` (property read on `undefined`) is `Except.error JsError.typeError`.
* Orientation strings (`'top'`, `'top-left'`, `'intersect'`, ...) are the
  constructors of `Orientation`.
* `modeling.moveShape(label, delta)` is recorded as a `Move` in the list of
  requested effects returned by `checkLabelAdjustment`.
-/

set_option autoImplicit false

namespace AdaptiveLabelPositioning

/-! ## Data model -/

/-- A 2-D point `{ x, y }`. -/
structure Point where
  x : ℚ
  y : ℚ
  deriving DecidableEq

/-- Bounds `{ x, y, width, height }` of a shape or label. -/
structure Rect where
  x : ℚ
  y : ℚ
  width : ℚ
  height : ℚ
  deriving DecidableEq

/-- The `{ top, right, bottom, left }` form of a bounding box. -/
structure TRBL where
  top : ℚ
  right : ℚ
  bottom : ℚ
  left : ℚ
  deriving DecidableEq

/-- The strings an orientation classification can produce. -/
inductive Orientation where
  | top
  | bottom
  | left
  | right
  | topLeft
  | topRight
  | bottomLeft
  | bottomRight
  | intersect
  deriving DecidableEq

/-- A connection: its ordered waypoints. -/
structure Connection where
  waypoints : List Point
  deriving DecidableEq

/-- A shape as read by the behavior: bounds, optional external label,
optional host, incoming and outgoing connections. -/
structure Shape where
  x : ℚ
  y : ℚ
  width : ℚ
  height : ℚ
  label : Option Rect
  host : Option Rect
  incoming : List Connection
  outgoing : List Connection
  deriving DecidableEq

/-- The only runtime failure of the embedded code: a property read on
`undefined`. -/
inductive JsError where
  | typeError
  deriving DecidableEq

/-- A requested `modeling.moveShape(shape, delta)` call. -/
structure Move where
  shape : Rect
  delta : Point
  deriving DecidableEq

/-- The bounds of a shape, as `asTRBL` and `getMid` read them. -/
def Shape.bounds (element : Shape) : Rect :=
  ⟨element.x, element.y, element.width, element.height⟩

/-- A point passed where bounds are expected: `width` and `height` are
absent and read as `0` (`bounds.width || 0`). -/
def Point.toRect (p : Point) : Rect :=
  ⟨p.x, p.y, 0, 0⟩

/-! ## Imported helpers -/

/-- Modelled from the spec: `asTRBL` of `diagram-js/lib/layout/LayoutUtil`
(imported, not part of the sources): the top/right/bottom/left form of a
bounding box given by position, width and height. -/
def asTRBL (bounds : Rect) : TRBL :=
  { top := bounds.y
    right := bounds.x + bounds.width
    bottom := bounds.y + bounds.height
    left := bounds.x }

/-- Modelled from the spec: `getMid` of `diagram-js/lib/layout/LayoutUtil`
(imported, not part of the sources): the center of a bounding box, the box
being "equivalently center + width/height". -/
def getMid (bounds : Rect) : Point :=
  { x := bounds.x + bounds.width / 2
    y := bounds.y + bounds.height / 2 }

/-- Modelled from the spec: `getOrientation(rect, reference, padding)` of
`diagram-js/lib/layout/LayoutUtil` (imported, not part of the sources): the
position of `rect` relative to `reference` as one of top, bottom, left,
right, a diagonal, or intersect, with `padding` as tolerance band. -/
def getOrientation (rect reference : Rect) (padding : ℚ) : Orientation :=
  let rectOrientation := asTRBL rect
  let referenceOrientation := asTRBL reference
  let top : Bool := decide (rectOrientation.bottom + padding ≤ referenceOrientation.top)
  let right : Bool := decide (rectOrientation.left - padding ≥ referenceOrientation.right)
  let bottom : Bool := decide (rectOrientation.top - padding ≥ referenceOrientation.bottom)
  let left : Bool := decide (rectOrientation.right + padding ≤ referenceOrientation.left)
  if top then
    (if left then .topLeft else if right then .topRight else .top)
  else if bottom then
    (if left then .bottomLeft else if right then .bottomRight else .bottom)
  else
    (if left then .left else if right then .right else .intersect)

/-- Modelled from the spec: `substract` of `diagram-js/lib/util/Math`
(imported, not part of the sources): the component-wise difference
`targetCenter − currentLabelCenter` of two points. -/
def substract (p1 p2 : Point) : Point :=
  { x := p1.x - p2.x
    y := p1.y - p2.y }

/-- Modelled from the spec: `hasExternalLabel` of `lib/util/LabelUtil`
(not part of the sources): whether the shape currently has an external
label. -/
def hasExternalLabel (element : Shape) : Bool :=
  element.label.isSome

/-- Modelled from the spec: the effect of the external operation
`moveShape(shape, deltaVector)`: a translation of the shape, width and
height unchanged. -/
def moveShape (shape : Rect) (delta : Point) : Rect :=
  { shape with x := shape.x + delta.x, y := shape.y + delta.y }

/-! ## JavaScript array primitives -/

/-- JavaScript `xs[i]`: `undefined` when `i` is negative or past the end. -/
def jsGet {α : Type} (xs : List α) (i : Int) : Option α :=
  if i < 0 then none else xs.get? i.toNat

/-- JavaScript `xs.indexOf(a)`: the first index of `a`, or `-1`. -/
def indexOf {α : Type} [DecidableEq α] : List α → α → Int
  | [], _ => -1
  | x :: xs, a =>
    if x = a then 0
    else
      let i := indexOf xs a
      if i = -1 then -1 else i + 1

/-- JavaScript `xs.map(f)` for a callback that may throw: the first error
aborts the traversal. -/
def mapE {α β : Type} (f : α → Except JsError β) : List α → Except JsError (List β)
  | [] => .ok []
  | a :: as =>
    match f a with
    | .error e => .error e
    | .ok b =>
      match mapE f as with
      | .error e => .error e
      | .ok bs => .ok (b :: bs)

/-- JavaScript `xs.filter(p)` for a callback that may throw: the first error
aborts the traversal. -/
def filterE {α : Type} (p : α → Except JsError Bool) : List α → Except JsError (List α)
  | [] => .ok []
  | a :: as =>
    match p a with
    | .error e => .error e
    | .ok b =>
      match filterE p as with
      | .error e => .error e
      | .ok r => .ok (if b then a :: r else r)

/-! ## The behavior -/

/-- The four actionable sides, in priority order. -/
def ALIGNMENTS : List Orientation :=
  [.top, .bottom, .left, .right]

/-- The clearance between element and label. -/
def ELEMENT_LABEL_DISTANCE : ℚ := 0

/-- The source's `getApproximateOrientation(p0, p1)`: the position of `p1`
relative to `p0`, with tolerance 5. -/
def getApproximateOrientation (p0 p1 : Point) : Orientation :=
  getOrientation p1.toRect p0.toRect 5

/-- The source's `isAligned(orientation)`. -/
def isAligned (orientation : Orientation) : Bool :=
  indexOf ALIGNMENTS orientation != -1

/-- The source's `getNewLabelMid(element, orientation)`. The result is
`undefined` when the `switch` falls through; reading `label.height` or
`label.width` of a missing label throws. -/
def getNewLabelMid (element : Shape) (orientation : Orientation) :
    Except JsError (Option Point) :=
  let elementMid := getMid element.bounds
  let label := element.label
  let elementTrbl := asTRBL element.bounds
  match orientation with
  | .top =>
    match label with
    | none => .error .typeError
    | some label =>
      .ok (some
        { x := elementMid.x
          y := elementTrbl.top - ELEMENT_LABEL_DISTANCE - label.height / 2 })
  | .left =>
    match label with
    | none => .error .typeError
    | some label =>
      .ok (some
        { x := elementTrbl.left - ELEMENT_LABEL_DISTANCE - label.width / 2
          y := elementMid.y })
  | .bottom =>
    match label with
    | none => .error .typeError
    | some label =>
      .ok (some
        { x := elementMid.x
          y := elementTrbl.bottom + ELEMENT_LABEL_DISTANCE + label.height / 2 })
  | .right =>
    match label with
    | none => .error .typeError
    | some label =>
      .ok (some
        { x := elementTrbl.right + ELEMENT_LABEL_DISTANCE + label.width / 2
          y := elementMid.y })
  | _ => .ok none

/-- The index read on an incoming connection: `c.waypoints.length - 2`. -/
def incomingIndex (c : Connection) : Int :=
  (c.waypoints.length : Int) - 2

/-- The index read on an outgoing connection: `1`. -/
def outgoingIndex (_c : Connection) : Int :=
  1

/-- The callback mapped over `element.incoming`:
`c.waypoints[c.waypoints.length - 2]`. -/
def incomingWaypoint (c : Connection) : Option Point :=
  jsGet c.waypoints (incomingIndex c)

/-- The callback mapped over `element.outgoing`: `c.waypoints[1]`. -/
def outgoingWaypoint (c : Connection) : Option Point :=
  jsGet c.waypoints (outgoingIndex c)

/-- The waypoints that decide the taken sides, in the source's order:
`[].concat(element.incoming.map(...), element.outgoing.map(...))`. -/
def decidingWaypoints (element : Shape) : List (Option Point) :=
  [] ++ element.incoming.map incomingWaypoint ++ element.outgoing.map outgoingWaypoint

/-- The source's local `takenAlignments`: every deciding waypoint classified
against the element's center. Classifying an `undefined` waypoint throws. -/
def takenAlignments (element : Shape) : Except JsError (List Orientation) :=
  let elementMid := getMid element.bounds
  mapE
    (fun point =>
      match point with
      | none => .error .typeError
      | some point => .ok (getApproximateOrientation elementMid point))
    (decidingWaypoints element)

/-- The source's first `freeAlignments`: the sides no connection takes. -/
def freeAlignments (taken : List Orientation) : List Orientation :=
  ALIGNMENTS.filter (fun alignment => indexOf taken alignment == -1)

/-- The callback of the host filter: `false` exactly when the hypothetical
label center is classified `intersect` against the host with padding 20. -/
def hostFilter (element : Shape) (hostElement : Rect) (a : Orientation) :
    Except JsError Bool :=
  match getNewLabelMid element a with
  | .error e => .error e
  | .ok none => .error .typeError
  | .ok (some newLabelMid) =>
    let hostOrientation := getOrientation hostElement newLabelMid.toRect 20
    if hostOrientation = .intersect then .ok false else .ok true

/-- The source's `getOptimalPosition(element)`: the side to move the label
to, or `undefined`. -/
def getOptimalPosition (element : Shape) : Except JsError (Option Orientation) :=
  match element.label with
  | none => .error .typeError
  | some label =>
    let labelMid := getMid label
    let elementMid := getMid element.bounds
    let labelOrientation := getApproximateOrientation elementMid labelMid
    if !isAligned labelOrientation then .ok none
    else
      match takenAlignments element with
      | .error e => .error e
      | .ok taken =>
        let free := freeAlignments taken
        if indexOf free labelOrientation != -1 then .ok none
        else
          match element.host with
          | some hostElement =>
            match filterE (hostFilter element hostElement) free with
            | .error e => .error e
            | .ok free => .ok free.head?
          | none => .ok free.head?

/-- The source's `adjustLabelPosition(element, orientation)`: the requested
move of the label. -/
def adjustLabelPosition (element : Shape) (orientation : Orientation) :
    Except JsError Move :=
  match element.label with
  | none => .error .typeError
  | some label =>
    let labelMid := getMid label
    match getNewLabelMid element orientation with
    | .error e => .error e
    | .ok none => .error .typeError
    | .ok (some newLabelMid) =>
      let delta := substract newLabelMid labelMid
      .ok { shape := label, delta := delta }

/-- The source's `checkLabelAdjustment(element)`: the list of `moveShape`
calls it issues. -/
def checkLabelAdjustment (element : Shape) : Except JsError (List Move) :=
  if !hasExternalLabel element then .ok []
  else
    match getOptimalPosition element with
    | .error e => .error e
    | .ok none => .ok []
    | .ok (some optimalPosition) =>
      match adjustLabelPosition element optimalPosition with
      | .error e => .error e
      | .ok move => .ok [move]


/-! ## Notions used to state the properties -/

/-- The label's current orientation: its center classified against the
element's center with tolerance 5 (the source's local `labelOrientation`). -/
def labelOrientation (element : Shape) (label : Rect) : Orientation :=
  getApproximateOrientation (getMid element.bounds) (getMid label)

/-- Whether the hypothetical label center on side `a` is classified
`intersect` against the host's bounding box with padding 20. -/
def intersectsHost (element : Shape) (hostElement : Rect) (a : Orientation) : Bool :=
  match getNewLabelMid element a with
  | .ok (some newLabelMid) =>
    decide (getOrientation hostElement newLabelMid.toRect 20 = .intersect)
  | _ => false

/-- Structural validity of the external model: every connection of the
shape has at least two waypoints. -/
def WellFormed (element : Shape) : Prop :=
  ∀ c ∈ element.incoming ++ element.outgoing, 2 ≤ c.waypoints.length

/-! ## Example diagrams -/

/-- A 36×36 shape at (100, 100) whose label sits on the left; an incoming
connection arrives from the top, an outgoing one leaves to the left. -/
def exTopLeft : Shape :=
  { x := 100, y := 100, width := 36, height := 36
    label := some ⟨40, 108, 50, 20⟩
    host := none
    incoming := [⟨[⟨118, 0⟩, ⟨118, 50⟩, ⟨118, 100⟩]⟩]
    outgoing := [⟨[⟨100, 118⟩, ⟨50, 118⟩, ⟨0, 118⟩]⟩] }

/-- The same connections, the label below the shape (a free side). -/
def exLabelBottom : Shape :=
  { exTopLeft with label := some ⟨93, 140, 50, 20⟩ }

/-- A label diagonally offset (top-left) from its shape, next to a
degenerate incoming connection with a single waypoint. -/
def exDiagonal : Shape :=
  { x := 100, y := 100, width := 36, height := 36
    label := some ⟨40, 40, 50, 20⟩
    host := none
    incoming := [⟨[⟨118, 100⟩]⟩]
    outgoing := [] }

/-- The shape and connections of `exTopLeft`, attached to a host whose
top-right corner is the shape's center: a label below the shape would lie
on the host, a label to the right would not. -/
def exHost : Shape :=
  { exTopLeft with host := some ⟨18, 118, 100, 80⟩ }

/-- The reference formulas of the displacement computation, as the
specification words them, for a shape box, a label box and a clearance:
top: `(center.x, top − clearance − label.height/2)`,
bottom: `(center.x, bottom + clearance + label.height/2)`,
left: `(left − clearance − label.width/2, center.y)`,
right: `(right + clearance + label.width/2, center.y)`. -/
def computeTargetCenter (clearance : ℚ) (shape label : Rect) : Orientation → Option Point
  | .top =>
    some ⟨shape.x + shape.width / 2, shape.y - clearance - label.height / 2⟩
  | .bottom =>
    some ⟨shape.x + shape.width / 2, shape.y + shape.height + clearance + label.height / 2⟩
  | .left =>
    some ⟨shape.x - clearance - label.width / 2, shape.y + shape.height / 2⟩
  | .right =>
    some ⟨shape.x + shape.width + clearance + label.width / 2, shape.y + shape.height / 2⟩
  | _ => none

/-- The box of the label's width and height centered at `mid`. -/
def labelBoxAt (mid : Point) (label : Rect) : Rect :=
  { x := mid.x - label.width / 2
    y := mid.y - label.height / 2
    width := label.width
    height := label.height }

/-- Modelled from the spec: the diagram state after the external command
stack executes one requested `moveShape` call. The state the behavior reads
is the shape itself; a move that targets the shape's label translates that
label, and nothing else changes. -/
def applyMove (element : Shape) (move : Move) : Shape :=
  match element.label with
  | some l =>
    if move.shape = l then { element with label := some (moveShape l move.delta) }
    else element
  | none => element

/-- The diagram state after executing the requested moves in order. -/
def applyMoves (element : Shape) (moves : List Move) : Shape :=
  moves.foldl applyMove element

/-- One evaluation of a shape: run `checkLabelAdjustment` and execute the
moves it issues. -/
def evaluate (element : Shape) : Except JsError Shape :=
  match checkLabelAdjustment element with
  | .error e => .error e
  | .ok moves => .ok (applyMoves element moves)

/-- A straight connection with exactly two waypoints. -/
def exStraight : Connection :=
  ⟨[⟨0, 0⟩, ⟨100, 0⟩]⟩

/-- A connection with three waypoints, arriving at its last one. -/
def exBent : Connection :=
  ⟨[⟨118, 0⟩, ⟨118, 50⟩, ⟨118, 100⟩]⟩

/-- The shape of `exTopLeft` with a degenerate incoming connection of a
single waypoint: outside the structurally valid diagrams. -/
def exDegenerate : Shape :=
  { exTopLeft with incoming := [⟨[⟨118, 100⟩]⟩] }

/-- Modelled from the spec: the diagram the event handlers act on, as the
shapes it holds, by identity. -/
abbrev Diagram := Nat → Shape

/-- What a handler run leaves behind: the `moveShape` calls issued, in
order, the diagram after executing them, and the error that aborted the
run, if any. -/
structure Run where
  moves : List Move
  diagram : Diagram
  error : Option JsError

/-- The call `checkLabelAdjustment(element)` inside a handler, on the shape
`element` of the diagram: the issued moves are executed on that shape. A
throw happens before `modeling.moveShape` is reached, so it leaves no move. -/
def checkLabelAdjustmentIn (d : Diagram) (element : Nat) : Run :=
  match checkLabelAdjustment (d element) with
  | .error e => ⟨[], d, some e⟩
  | .ok moves => ⟨moves, Function.update d element (applyMoves (d element) moves), none⟩

/-- The handler of `connection.create`, `connection.layout` and
`connection.updateWaypoints`: `checkLabelAdjustment(source)` and then
`checkLabelAdjustment(target)`. -/
def connectionPostExecuted (d : Diagram) (source target : Nat) : Run :=
  let first := checkLabelAdjustmentIn d source
  match first.error with
  | some _ => first
  | none =>
    let second := checkLabelAdjustmentIn first.diagram target
    ⟨first.moves ++ second.moves, second.diagram, second.error⟩

/-- The handler of `label.create`:
`checkLabelAdjustment(event.context.shape.labelTarget)`. -/
def labelCreatePostExecuted (d : Diagram) (labelTarget : Nat) : Run :=
  checkLabelAdjustmentIn d labelTarget

/-- A diagram whose shape 0 is `exTopLeft` and whose other shapes are
`exLabelBottom`. -/
def exDiagram : Diagram :=
  fun n => if n = 0 then exTopLeft else exLabelBottom

/-- The sides the connections take: the classifications, against the
element's center, of the deciding waypoints that exist. -/
def takenSides (element : Shape) : List Orientation :=
  ((decidingWaypoints element).filterMap id).map
    (getApproximateOrientation (getMid element.bounds))

/-- The shape of `exTopLeft` with a second incoming connection that also
arrives from the top. -/
def exTopTwice : Shape :=
  { exTopLeft with incoming := exBent :: exTopLeft.incoming }

/-- A point translated by the vector `v`. -/
def Point.translate (p v : Point) : Point :=
  ⟨p.x + v.x, p.y + v.y⟩

/-- Bounds translated by the vector `v`, width and height unchanged. -/
def Rect.translate (v : Point) (r : Rect) : Rect :=
  ⟨r.x + v.x, r.y + v.y, r.width, r.height⟩

/-- A connection with every waypoint translated by `v`. -/
def Connection.translate (v : Point) (c : Connection) : Connection :=
  ⟨c.waypoints.map (fun p => p.translate v)⟩

/-- The shape, its label, its host and every waypoint of its connections
translated by the same vector `v`. -/
def Shape.translate (v : Point) (element : Shape) : Shape :=
  { x := element.x + v.x
    y := element.y + v.y
    width := element.width
    height := element.height
    label := element.label.map (Rect.translate v)
    host := element.host.map (Rect.translate v)
    incoming := element.incoming.map (Connection.translate v)
    outgoing := element.outgoing.map (Connection.translate v) }

/-! ## Auxiliary lemmas -/

theorem neg_one_le_indexOf {α : Type} [DecidableEq α] (xs : List α) (a : α) :
    -1 ≤ indexOf xs a := by
  induction xs with
  | nil => simp [indexOf]
  | cons x xs ih =>
    simp only [indexOf]
    split_ifs <;> omega

theorem indexOf_eq_neg_one_iff {α : Type} [DecidableEq α] (xs : List α) (a : α) :
    indexOf xs a = -1 ↔ a ∉ xs := by
  induction xs with
  | nil => simp [indexOf]
  | cons x xs ih =>
    have hge := neg_one_le_indexOf xs a
    simp only [indexOf, List.mem_cons, not_or]
    split_ifs with h1 h2
    · subst h1; simp
    · rw [ih] at h2
      simp [h2, Ne.symm h1]
    · have : a ∈ xs := by
        by_contra hc
        exact h2 (ih.mpr hc)
      constructor
      · intro h; omega
      · intro h; exact absurd this h.2

theorem isAligned_iff (o : Orientation) : isAligned o = true ↔ o ∈ ALIGNMENTS := by
  cases o <;> decide

theorem freeAlignments_eq (taken : List Orientation) :
    freeAlignments taken = ALIGNMENTS.filter (fun a => decide (a ∉ taken)) := by
  unfold freeAlignments
  congr 1
  funext a
  by_cases h : a ∈ taken
  · have : indexOf taken a ≠ -1 := fun hc => (indexOf_eq_neg_one_iff taken a).mp hc h
    simp [h, this]
  · have : indexOf taken a = -1 := (indexOf_eq_neg_one_iff taken a).mpr h
    simp [h, this]

theorem mem_freeAlignments (taken : List Orientation) (a : Orientation) :
    a ∈ freeAlignments taken ↔ a ∈ ALIGNMENTS ∧ a ∉ taken := by
  simp [freeAlignments_eq, List.mem_filter]

theorem filterE_eq_ok {α : Type} (p : α → Except JsError Bool) (q : α → Bool)
    (xs : List α) (h : ∀ a ∈ xs, p a = .ok (q a)) :
    filterE p xs = .ok (xs.filter q) := by
  induction xs with
  | nil => rfl
  | cons a as ih =>
    have ha := h a (List.mem_cons_self a as)
    have ih2 := ih (fun b hb => h b (List.mem_cons_of_mem a hb))
    simp only [filterE, ha, ih2, List.filter_cons]

theorem head?_filter_eq_find? {α : Type} (p : α → Bool) (xs : List α) :
    (xs.filter p).head? = xs.find? p := by
  induction xs with
  | nil => rfl
  | cons a as ih =>
    simp only [List.filter_cons, List.find?_cons]
    cases h : p a <;> simp [ih]

theorem getNewLabelMid_isSome (element : Shape) (l : Rect) (a : Orientation)
    (hl : element.label = some l) (ha : a ∈ ALIGNMENTS) :
    ∃ m, getNewLabelMid element a = .ok (some m) := by
  cases a <;> simp [ALIGNMENTS] at ha <;> simp [getNewLabelMid, hl]

theorem hostFilter_eq (element : Shape) (l hostElement : Rect) (a : Orientation)
    (hl : element.label = some l) (ha : a ∈ ALIGNMENTS) :
    hostFilter element hostElement a = .ok (!intersectsHost element hostElement a) := by
  obtain ⟨m, hm⟩ := getNewLabelMid_isSome element l a hl ha
  simp only [hostFilter, intersectsHost, hm]
  split_ifs with h <;> simp [h]

theorem getOptimalPosition_of_taken (element : Shape) (l : Rect) (taken : List Orientation)
    (hl : element.label = some l)
    (ht : takenAlignments element = .ok taken)
    (ha : labelOrientation element l ∈ ALIGNMENTS)
    (hk : labelOrientation element l ∈ taken) :
    getOptimalPosition element =
      match element.host with
      | none => .ok (ALIGNMENTS.find? (fun a => decide (a ∉ taken)))
      | some h =>
        .ok (ALIGNMENTS.find? (fun a => decide (a ∉ taken) && !intersectsHost element h a)) := by
  have hal : isAligned (labelOrientation element l) = true := (isAligned_iff _).mpr ha
  have hnf : indexOf (freeAlignments taken) (labelOrientation element l) = -1 := by
    rw [indexOf_eq_neg_one_iff, mem_freeAlignments]
    exact fun h => h.2 hk
  have hal2 : isAligned (getApproximateOrientation (getMid element.bounds) (getMid l)) = true := hal
  have hnf2 : indexOf (freeAlignments taken)
      (getApproximateOrientation (getMid element.bounds) (getMid l)) = -1 := hnf
  unfold getOptimalPosition
  simp only [hl, ht, hal2, hnf2]
  cases hh : element.host with
  | none =>
    simp [freeAlignments_eq, head?_filter_eq_find?]
  | some h =>
    have hf := filterE_eq_ok (hostFilter element h) (fun a => !intersectsHost element h a)
      (freeAlignments taken)
      (fun a ha => hostFilter_eq element l h a hl ((mem_freeAlignments taken a).mp ha).1)
    simp only [hf]
    simp [freeAlignments_eq, head?_filter_eq_find?, List.filter_filter, Bool.and_comm]

theorem checkLabelAdjustment_of_none (element : Shape)
    (h : getOptimalPosition element = .ok none) :
    checkLabelAdjustment element = .ok [] := by
  unfold checkLabelAdjustment
  split_ifs
  · rfl
  · simp only [h]

theorem getOptimalPosition_unaligned (element : Shape) (l : Rect)
    (hl : element.label = some l)
    (hu : labelOrientation element l ∉ ALIGNMENTS) :
    getOptimalPosition element = .ok none := by
  have hal : isAligned (getApproximateOrientation (getMid element.bounds) (getMid l)) = false := by
    cases h : isAligned (labelOrientation element l)
    · exact h
    · exact absurd ((isAligned_iff _).mp h) hu
  unfold getOptimalPosition
  simp [hl, hal]

theorem getOptimalPosition_side_free (element : Shape) (l : Rect) (taken : List Orientation)
    (hl : element.label = some l)
    (ht : takenAlignments element = .ok taken)
    (hfree : labelOrientation element l ∉ taken) :
    getOptimalPosition element = .ok none := by
  by_cases ha : labelOrientation element l ∈ ALIGNMENTS
  · have hal : isAligned (getApproximateOrientation (getMid element.bounds) (getMid l)) = true :=
      (isAligned_iff _).mpr ha
    have hnf : indexOf (freeAlignments taken)
        (getApproximateOrientation (getMid element.bounds) (getMid l)) ≠ -1 := by
      intro hc
      exact (indexOf_eq_neg_one_iff _ _).mp hc ((mem_freeAlignments taken _).mpr ⟨ha, hfree⟩)
    unfold getOptimalPosition
    simp [hl, ht, hal, hnf]
  · exact getOptimalPosition_unaligned element l hl ha

theorem takenAlignments_exTopLeft : takenAlignments exTopLeft = .ok [.top, .left] := by
  norm_num [takenAlignments, decidingWaypoints, incomingWaypoint, outgoingWaypoint,
    incomingIndex, outgoingIndex, exTopLeft, mapE, jsGet, getApproximateOrientation,
    getOrientation, asTRBL, getMid, Point.toRect, Shape.bounds]

theorem labelOrientation_exTopLeft :
    labelOrientation exTopLeft ⟨40, 108, 50, 20⟩ = .left := by
  norm_num [labelOrientation, exTopLeft, getApproximateOrientation,
    getOrientation, asTRBL, getMid, Point.toRect, Shape.bounds]

theorem takenAlignments_exLabelBottom : takenAlignments exLabelBottom = .ok [.top, .left] := by
  norm_num [takenAlignments, decidingWaypoints, incomingWaypoint, outgoingWaypoint,
    incomingIndex, outgoingIndex, exLabelBottom, exTopLeft, mapE, jsGet,
    getApproximateOrientation, getOrientation, asTRBL, getMid, Point.toRect, Shape.bounds]

theorem labelOrientation_exLabelBottom :
    labelOrientation exLabelBottom ⟨93, 140, 50, 20⟩ = .bottom := by
  norm_num [labelOrientation, exLabelBottom, exTopLeft, getApproximateOrientation,
    getOrientation, asTRBL, getMid, Point.toRect, Shape.bounds]

theorem labelOrientation_exDiagonal :
    labelOrientation exDiagonal ⟨40, 40, 50, 20⟩ = .topLeft := by
  norm_num [labelOrientation, exDiagonal, getApproximateOrientation,
    getOrientation, asTRBL, getMid, Point.toRect, Shape.bounds]

theorem takenAlignments_exHost : takenAlignments exHost = .ok [.top, .left] := by
  norm_num [takenAlignments, decidingWaypoints, incomingWaypoint, outgoingWaypoint,
    incomingIndex, outgoingIndex, exHost, exTopLeft, mapE, jsGet,
    getApproximateOrientation, getOrientation, asTRBL, getMid, Point.toRect, Shape.bounds]

theorem labelOrientation_exHost :
    labelOrientation exHost ⟨40, 108, 50, 20⟩ = .left := by
  norm_num [labelOrientation, exHost, exTopLeft, getApproximateOrientation,
    getOrientation, asTRBL, getMid, Point.toRect, Shape.bounds]

theorem intersectsHost_exHost_bottom :
    intersectsHost exHost ⟨18, 118, 100, 80⟩ .bottom = true := by
  norm_num [intersectsHost, getNewLabelMid, exHost, exTopLeft, ELEMENT_LABEL_DISTANCE,
    getOrientation, asTRBL, getMid, Point.toRect, Shape.bounds]

theorem intersectsHost_exHost_right :
    intersectsHost exHost ⟨18, 118, 100, 80⟩ .right = false := by
  norm_num [intersectsHost, getNewLabelMid, exHost, exTopLeft, ELEMENT_LABEL_DISTANCE,
    getOrientation, asTRBL, getMid, Point.toRect, Shape.bounds]
  decide

theorem getNewLabelMid_top (element : Shape) (l : Rect) (hl : element.label = some l) :
    getNewLabelMid element .top =
      .ok (some ⟨(getMid element.bounds).x, (asTRBL element.bounds).top - l.height / 2⟩) := by
  simp [getNewLabelMid, hl, ELEMENT_LABEL_DISTANCE]

theorem getNewLabelMid_bottom (element : Shape) (l : Rect) (hl : element.label = some l) :
    getNewLabelMid element .bottom =
      .ok (some ⟨(getMid element.bounds).x, (asTRBL element.bounds).bottom + l.height / 2⟩) := by
  simp [getNewLabelMid, hl, ELEMENT_LABEL_DISTANCE]

theorem getNewLabelMid_left (element : Shape) (l : Rect) (hl : element.label = some l) :
    getNewLabelMid element .left =
      .ok (some ⟨(asTRBL element.bounds).left - l.width / 2, (getMid element.bounds).y⟩) := by
  simp [getNewLabelMid, hl, ELEMENT_LABEL_DISTANCE]

theorem getNewLabelMid_right (element : Shape) (l : Rect) (hl : element.label = some l) :
    getNewLabelMid element .right =
      .ok (some ⟨(asTRBL element.bounds).right + l.width / 2, (getMid element.bounds).y⟩) := by
  simp [getNewLabelMid, hl, ELEMENT_LABEL_DISTANCE]

theorem mapE_ok {α β : Type} (f : α → Except JsError β) (xs : List α)
    (h : ∀ a ∈ xs, ∃ b, f a = .ok b) : ∃ bs, mapE f xs = .ok bs := by
  induction xs with
  | nil => exact ⟨[], rfl⟩
  | cons a as ih =>
    obtain ⟨b, hb⟩ := h a (List.mem_cons_self a as)
    obtain ⟨bs, hbs⟩ := ih (fun c hc => h c (List.mem_cons_of_mem a hc))
    exact ⟨b :: bs, by simp only [mapE, hb, hbs]⟩

theorem jsGet_isSome {α : Type} (xs : List α) (i : Int) (h0 : 0 ≤ i)
    (h1 : i < (xs.length : Int)) : ∃ a, jsGet xs i = some a := by
  have hlt : i.toNat < xs.length := by omega
  refine ⟨xs.get ⟨i.toNat, hlt⟩, ?_⟩
  unfold jsGet
  rw [if_neg (by omega)]
  exact List.get?_eq_get hlt

theorem decidingWaypoints_isSome (element : Shape) (hw : WellFormed element) :
    ∀ p ∈ decidingWaypoints element, ∃ q, p = some q := by
  intro p hp
  simp only [decidingWaypoints, List.nil_append, List.mem_append, List.mem_map] at hp
  rcases hp with ⟨c, hc, rfl⟩ | ⟨c, hc, rfl⟩
  · have h2 := hw c (List.mem_append_left _ hc)
    exact jsGet_isSome _ _ (by unfold incomingIndex; omega) (by unfold incomingIndex; omega)
  · have h2 := hw c (List.mem_append_right _ hc)
    exact jsGet_isSome _ _ (by unfold outgoingIndex; omega) (by unfold outgoingIndex; omega)

theorem takenAlignments_ok (element : Shape) (hw : WellFormed element) :
    ∃ taken, takenAlignments element = .ok taken := by
  unfold takenAlignments
  apply mapE_ok
  intro p hp
  obtain ⟨q, rfl⟩ := decidingWaypoints_isSome element hw p hp
  exact ⟨_, rfl⟩

theorem jsGet_of_nonneg {α : Type} (xs : List α) (i : Int) (h0 : 0 ≤ i) :
    jsGet xs i = xs.get? i.toNat := by
  unfold jsGet
  rw [if_neg (by omega)]

theorem incomingWaypoint_eq (c : Connection) (h : 2 ≤ c.waypoints.length) :
    incomingWaypoint c = c.waypoints.get? (c.waypoints.length - 2) := by
  unfold incomingWaypoint incomingIndex
  rw [jsGet_of_nonneg _ _ (by omega)]
  congr 1
  omega

theorem outgoingWaypoint_eq (c : Connection) :
    outgoingWaypoint c = c.waypoints.get? 1 := by
  unfold outgoingWaypoint outgoingIndex
  rw [jsGet_of_nonneg _ _ (by omega)]
  rfl

/-- Outside the precondition the evaluator does fail: with an aligned label
and an incoming connection of one waypoint, the read at index `-1` is
`undefined` and classifying it throws. -/
theorem getOptimalPosition_exDegenerate :
    ¬ WellFormed exDegenerate ∧ getOptimalPosition exDegenerate = .error .typeError := by
  constructor
  · intro hw
    have := hw ⟨[⟨118, 100⟩]⟩ (by simp [exDegenerate])
    simp at this
  · have hl : exDegenerate.label = some ⟨40, 108, 50, 20⟩ := rfl
    have ho : getApproximateOrientation (getMid exDegenerate.bounds) (getMid ⟨40, 108, 50, 20⟩)
        = .left := by
      norm_num [exDegenerate, exTopLeft, getApproximateOrientation, getOrientation, asTRBL,
        getMid, Point.toRect, Shape.bounds]
    have ht : takenAlignments exDegenerate = .error .typeError := by
      simp [takenAlignments, decidingWaypoints, incomingWaypoint, incomingIndex, exDegenerate,
        exTopLeft, mapE, jsGet]
    have hal : isAligned .left = true := by decide
    simp only [getOptimalPosition, hl, ho, hal, ht]
    rfl

theorem getOptimalPosition_some (element : Shape) (s : Orientation)
    (h : getOptimalPosition element = .ok (some s)) :
    ∃ l taken, element.label = some l ∧ takenAlignments element = .ok taken ∧
      labelOrientation element l ∈ ALIGNMENTS ∧ labelOrientation element l ∈ taken ∧
      s ∈ ALIGNMENTS ∧ s ∉ taken := by
  cases hl : element.label with
  | none => simp [getOptimalPosition, hl] at h
  | some l =>
    by_cases ha : labelOrientation element l ∈ ALIGNMENTS
    swap
    · rw [getOptimalPosition_unaligned element l hl ha] at h
      cases h
    cases ht : takenAlignments element with
    | error e =>
      have hal : isAligned (getApproximateOrientation (getMid element.bounds) (getMid l)) = true :=
        (isAligned_iff _).mpr ha
      simp [getOptimalPosition, hl, hal, ht] at h
    | ok taken =>
      by_cases hk : labelOrientation element l ∈ taken
      swap
      · rw [getOptimalPosition_side_free element l taken hl ht hk] at h
        cases h
      have h2 := getOptimalPosition_of_taken element l taken hl ht ha hk
      rw [h] at h2
      have hfind : ∃ p : Orientation → Bool, (∀ a, p a = true → a ∉ taken) ∧
          ALIGNMENTS.find? p = some s := by
        cases hh : element.host with
        | none =>
          simp only [hh] at h2
          exact ⟨_, fun a ha => by simpa using ha, (Except.ok.inj h2).symm⟩
        | some hst =>
          simp only [hh] at h2
          exact ⟨_, fun a ha => by
            simp only [Bool.and_eq_true, decide_eq_true_eq] at ha
            exact ha.1, (Except.ok.inj h2).symm⟩
      obtain ⟨p, hp, hf⟩ := hfind
      exact ⟨l, taken, rfl, rfl, ha, hk, List.mem_of_find?_eq_some hf, hp s (List.find?_some hf)⟩

theorem checkLabelAdjustment_cases (element : Shape) :
    checkLabelAdjustment element = .error .typeError ∨
    checkLabelAdjustment element = .ok [] ∨
    ∃ l s m, element.label = some l ∧ getOptimalPosition element = .ok (some s) ∧
      getNewLabelMid element s = .ok (some m) ∧
      adjustLabelPosition element s = .ok ⟨l, substract m (getMid l)⟩ ∧
      checkLabelAdjustment element = .ok [⟨l, substract m (getMid l)⟩] := by
  cases hl : element.label with
  | none =>
    right; left
    simp [checkLabelAdjustment, hasExternalLabel, hl]
  | some l =>
    cases hg : getOptimalPosition element with
    | error e =>
      left
      cases e
      simp [checkLabelAdjustment, hasExternalLabel, hl, hg]
    | ok r =>
      cases r with
      | none =>
        right; left
        exact checkLabelAdjustment_of_none element hg
      | some s =>
        right; right
        obtain ⟨l', taken, hl', _, _, _, hs, _⟩ := getOptimalPosition_some element s hg
        obtain ⟨m, hm⟩ := getNewLabelMid_isSome element l s hl hs
        have hadj : adjustLabelPosition element s = .ok ⟨l, substract m (getMid l)⟩ := by
          simp only [adjustLabelPosition, hl, hm]
        refine ⟨l, s, m, rfl, rfl, hm, hadj, ?_⟩
        simp [checkLabelAdjustment, hasExternalLabel, hl, hg, hadj]

theorem checkLabelAdjustment_length (element : Shape) (moves : List Move)
    (h : checkLabelAdjustment element = .ok moves) : moves.length ≤ 1 := by
  rcases checkLabelAdjustment_cases element with h1 | h1 | ⟨l, s, m, _, _, _, _, h1⟩ <;>
    rw [h1] at h <;> cases h <;> simp

theorem checkLabelAdjustmentIn_length (d : Diagram) (element : Nat) :
    (checkLabelAdjustmentIn d element).moves.length ≤ 1 := by
  unfold checkLabelAdjustmentIn
  cases h : checkLabelAdjustment (d element) with
  | error e => simp
  | ok moves => exact checkLabelAdjustment_length (d element) moves h


theorem getOptimalPosition_exTopLeft : getOptimalPosition exTopLeft = .ok (some .bottom) := by
  have h := getOptimalPosition_of_taken exTopLeft ⟨40, 108, 50, 20⟩ [.top, .left] rfl
    takenAlignments_exTopLeft
    (by rw [labelOrientation_exTopLeft]; decide)
    (by rw [labelOrientation_exTopLeft]; decide)
  exact h

theorem adjustLabelPosition_exTopLeft :
    adjustLabelPosition exTopLeft .bottom = .ok ⟨⟨40, 108, 50, 20⟩, ⟨53, 28⟩⟩ := by
  norm_num [adjustLabelPosition, getNewLabelMid, exTopLeft, ELEMENT_LABEL_DISTANCE, asTRBL,
    getMid, Shape.bounds, substract]

theorem checkLabelAdjustment_exTopLeft :
    checkLabelAdjustment exTopLeft = .ok [⟨⟨40, 108, 50, 20⟩, ⟨53, 28⟩⟩] := by
  have hl : hasExternalLabel exTopLeft = true := rfl
  simp only [checkLabelAdjustment, hl, getOptimalPosition_exTopLeft,
    adjustLabelPosition_exTopLeft]
  rfl

theorem checkLabelAdjustment_exLabelBottom : checkLabelAdjustment exLabelBottom = .ok [] :=
  checkLabelAdjustment_of_none exLabelBottom
    (getOptimalPosition_side_free exLabelBottom ⟨93, 140, 50, 20⟩ [.top, .left] rfl
      takenAlignments_exLabelBottom (by rw [labelOrientation_exLabelBottom]; decide))

theorem connectionPostExecuted_of_ok (d : Diagram) (source target : Nat)
    (h : (checkLabelAdjustmentIn d source).error = none) :
    connectionPostExecuted d source target =
      ⟨(checkLabelAdjustmentIn d source).moves ++
          (checkLabelAdjustmentIn (checkLabelAdjustmentIn d source).diagram target).moves,
        (checkLabelAdjustmentIn (checkLabelAdjustmentIn d source).diagram target).diagram,
        (checkLabelAdjustmentIn (checkLabelAdjustmentIn d source).diagram target).error⟩ := by
  simp only [connectionPostExecuted, h]

theorem connectionPostExecuted_of_error (d : Diagram) (source target : Nat) (e : JsError)
    (h : (checkLabelAdjustmentIn d source).error = some e) :
    connectionPostExecuted d source target = checkLabelAdjustmentIn d source := by
  simp only [connectionPostExecuted, h]

theorem checkLabelAdjustmentIn_moves_of_error (d : Diagram) (element : Nat) (e : JsError)
    (h : (checkLabelAdjustmentIn d element).error = some e) :
    (checkLabelAdjustmentIn d element).moves = [] := by
  unfold checkLabelAdjustmentIn at h ⊢
  cases hc : checkLabelAdjustment (d element) with
  | error e => rfl
  | ok moves => simp [hc] at h

theorem applyMove_own_label (element : Shape) (l : Rect) (delta : Point)
    (hl : element.label = some l) :
    applyMove element ⟨l, delta⟩ = { element with label := some (moveShape l delta) } := by
  simp [applyMove, hl]

theorem evaluate_cases (element element' : Shape) (h : evaluate element = .ok element') :
    element' = element ∨
    ∃ l s m, element.label = some l ∧ getOptimalPosition element = .ok (some s) ∧
      getNewLabelMid element s = .ok (some m) ∧
      element' = { element with label := some (moveShape l (substract m (getMid l))) } := by
  unfold evaluate at h
  rcases checkLabelAdjustment_cases element with h1 | h1 | ⟨l, s, m, hl, hs, hm, _, h1⟩
  · rw [h1] at h
    cases h
  · rw [h1] at h
    left
    cases h
    rfl
  · rw [h1] at h
    right
    refine ⟨l, s, m, hl, hs, hm, ?_⟩
    cases h
    simp only [applyMoves, List.foldl_cons, List.foldl_nil]
    exact applyMove_own_label element l _ hl

theorem mapE_classify (mid : Point) (ps : List (Option Point)) :
    mapE
      (fun point =>
        match point with
        | none => (.error .typeError : Except JsError Orientation)
        | some point => .ok (getApproximateOrientation mid point)) ps =
      if none ∈ ps then .error .typeError
      else .ok ((ps.filterMap id).map (getApproximateOrientation mid)) := by
  induction ps with
  | nil => simp [mapE]
  | cons p ps ih =>
    cases p with
    | none => simp [mapE]
    | some q =>
      simp only [mapE, ih]
      by_cases hn : none ∈ ps
      · simp [hn]
      · simp [hn]

theorem takenAlignments_eq (element : Shape) :
    takenAlignments element =
      if none ∈ decidingWaypoints element then .error .typeError
      else .ok (takenSides element) := by
  unfold takenAlignments takenSides
  exact mapE_classify _ _

theorem find?_congr_mem {α : Type} (p q : α → Bool) (xs : List α)
    (h : ∀ a ∈ xs, p a = q a) : xs.find? p = xs.find? q := by
  induction xs with
  | nil => rfl
  | cons a as ih =>
    have ha := h a (List.mem_cons_self a as)
    have ih2 := ih (fun b hb => h b (List.mem_cons_of_mem a hb))
    simp only [List.find?_cons, ha, ih2]

theorem getNewLabelMid_congr (e1 e2 : Shape) (a : Orientation)
    (hb : e1.bounds = e2.bounds) (hl : e1.label = e2.label) :
    getNewLabelMid e1 a = getNewLabelMid e2 a := by
  simp only [getNewLabelMid, hb, hl]

theorem getOptimalPosition_congr_taken (e1 e2 : Shape) (t1 t2 : List Orientation)
    (hb : e1.bounds = e2.bounds) (hl : e1.label = e2.label) (hh : e1.host = e2.host)
    (h1 : takenAlignments e1 = .ok t1) (h2 : takenAlignments e2 = .ok t2)
    (hset : ∀ a ∈ ALIGNMENTS, (a ∈ t1 ↔ a ∈ t2)) :
    getOptimalPosition e1 = getOptimalPosition e2 := by
  cases hl1 : e1.label with
  | none =>
    have hl2 : e2.label = none := by rw [← hl, hl1]
    simp [getOptimalPosition, hl1, hl2]
  | some l =>
    have hl2 : e2.label = some l := by rw [← hl, hl1]
    have ho : labelOrientation e1 l = labelOrientation e2 l := by
      simp only [labelOrientation, hb]
    by_cases ha : labelOrientation e1 l ∈ ALIGNMENTS
    swap
    · rw [getOptimalPosition_unaligned e1 l hl1 ha,
        getOptimalPosition_unaligned e2 l hl2 (ho ▸ ha)]
    by_cases hk : labelOrientation e1 l ∈ t1
    swap
    · have hk2 : labelOrientation e2 l ∉ t2 := by
        rw [← ho]
        exact fun hc => hk ((hset _ ha).mpr hc)
      rw [getOptimalPosition_side_free e1 l t1 hl1 h1 hk,
        getOptimalPosition_side_free e2 l t2 hl2 h2 hk2]
    have hk2 : labelOrientation e2 l ∈ t2 := by
      rw [← ho]
      exact (hset _ ha).mp hk
    rw [getOptimalPosition_of_taken e1 l t1 hl1 h1 ha hk,
      getOptimalPosition_of_taken e2 l t2 hl2 h2 (ho ▸ ha) hk2, ← hh]
    cases e1.host with
    | none =>
      simp only
      congr 1
      apply find?_congr_mem
      intro a ham
      simp [hset a ham]
    | some h =>
      simp only
      congr 1
      apply find?_congr_mem
      intro a ham
      have hi : intersectsHost e1 h a = intersectsHost e2 h a := by
        simp only [intersectsHost, getNewLabelMid_congr e1 e2 a hb hl]
      simp [hset a ham, hi]

theorem getOptimalPosition_congr_error (e1 e2 : Shape)
    (hb : e1.bounds = e2.bounds) (hl : e1.label = e2.label)
    (h1 : takenAlignments e1 = .error .typeError)
    (h2 : takenAlignments e2 = .error .typeError) :
    getOptimalPosition e1 = getOptimalPosition e2 := by
  simp only [getOptimalPosition, hb, hl, h1, h2]

theorem getOptimalPosition_congr_sides (e1 e2 : Shape)
    (hb : e1.bounds = e2.bounds) (hl : e1.label = e2.label) (hh : e1.host = e2.host)
    (hn : none ∈ decidingWaypoints e1 ↔ none ∈ decidingWaypoints e2)
    (hset : ∀ a ∈ ALIGNMENTS, (a ∈ takenSides e1 ↔ a ∈ takenSides e2)) :
    getOptimalPosition e1 = getOptimalPosition e2 := by
  by_cases h : none ∈ decidingWaypoints e1
  · exact getOptimalPosition_congr_error e1 e2 hb hl
      (by rw [takenAlignments_eq, if_pos h]) (by rw [takenAlignments_eq, if_pos (hn.mp h)])
  · exact getOptimalPosition_congr_taken e1 e2 _ _ hb hl hh
      (by rw [takenAlignments_eq, if_neg h])
      (by rw [takenAlignments_eq, if_neg (fun hc => h (hn.mpr hc))]) hset

theorem getOptimalPosition_congr_perm (e1 e2 : Shape)
    (hb : e1.bounds = e2.bounds) (hl : e1.label = e2.label) (hh : e1.host = e2.host)
    (hp : (decidingWaypoints e1).Perm (decidingWaypoints e2)) :
    getOptimalPosition e1 = getOptimalPosition e2 := by
  apply getOptimalPosition_congr_sides e1 e2 hb hl hh hp.mem_iff
  intro a _
  unfold takenSides
  rw [hb]
  exact ((hp.filterMap id).map _).mem_iff

theorem takenAlignments_ok_eq (element : Shape) (taken : List Orientation)
    (h : takenAlignments element = .ok taken) :
    none ∉ decidingWaypoints element ∧ taken = takenSides element := by
  rw [takenAlignments_eq] at h
  by_cases hn : none ∈ decidingWaypoints element
  · rw [if_pos hn] at h
    cases h
  · rw [if_neg hn] at h
    exact ⟨hn, (Except.ok.inj h).symm⟩

theorem mem_takenSides (element : Shape) (a : Orientation) :
    a ∈ takenSides element ↔
      ∃ p, some p ∈ decidingWaypoints element ∧
        getApproximateOrientation (getMid element.bounds) p = a := by
  simp [takenSides, List.mem_map, List.mem_filterMap]

theorem getOptimalPosition_add_waypoint (e1 e2 : Shape) (taken : List Orientation) (p : Point)
    (hb : e1.bounds = e2.bounds) (hl : e1.label = e2.label) (hh : e1.host = e2.host)
    (hd : ∀ q, q ∈ decidingWaypoints e2 ↔ q = some p ∨ q ∈ decidingWaypoints e1)
    (ht : takenAlignments e1 = .ok taken)
    (ho : getApproximateOrientation (getMid e1.bounds) p ∈ taken ∨
      getApproximateOrientation (getMid e1.bounds) p ∉ ALIGNMENTS) :
    getOptimalPosition e2 = getOptimalPosition e1 := by
  obtain ⟨hn, htk⟩ := takenAlignments_ok_eq e1 taken ht
  subst htk
  symm
  apply getOptimalPosition_congr_sides e1 e2 hb hl hh
  · rw [hd]
    simp
  · intro a ha
    rw [mem_takenSides, mem_takenSides, ← hb]
    constructor
    · rintro ⟨q, hq, hqa⟩
      exact ⟨q, (hd _).mpr (Or.inr hq), hqa⟩
    · rintro ⟨q, hq, hqa⟩
      rcases (hd _).mp hq with h1 | h1
      · cases h1
        rcases ho with h2 | h2
        · rw [hqa] at h2
          exact (mem_takenSides e1 a).mp h2
        · rw [hqa] at h2
          exact absurd ha h2
      · exact ⟨q, h1, hqa⟩

theorem getOptimalPosition_ok (element : Shape) (l : Rect)
    (hl : element.label = some l) (hw : WellFormed element) :
    ∃ r, getOptimalPosition element = .ok r := by
  obtain ⟨taken, ht⟩ := takenAlignments_ok element hw
  by_cases ha : labelOrientation element l ∈ ALIGNMENTS
  swap
  · exact ⟨none, getOptimalPosition_unaligned element l hl ha⟩
  by_cases hk : labelOrientation element l ∈ taken
  swap
  · exact ⟨none, getOptimalPosition_side_free element l taken hl ht hk⟩
  have h := getOptimalPosition_of_taken element l taken hl ht ha hk
  cases hh : element.host with
  | none =>
    simp only [hh] at h
    exact ⟨_, h⟩
  | some hst =>
    simp only [hh] at h
    exact ⟨_, h⟩

theorem wellFormed_exTopLeft : WellFormed exTopLeft := by
  intro c hc
  simp only [exTopLeft, List.singleton_append, List.mem_cons, List.mem_singleton,
    List.not_mem_nil, or_false] at hc
  rcases hc with rfl | rfl <;> simp

theorem orientation_of_newLabelMid (element : Shape) (l : Rect) (s : Orientation) (m : Point)
    (hl : element.label = some l)
    (hew : 0 ≤ element.width) (heh : 0 ≤ element.height)
    (hlw : 0 ≤ l.width) (hlh : 0 ≤ l.height)
    (hs : s ∈ ALIGNMENTS) (hm : getNewLabelMid element s = .ok (some m)) :
    getApproximateOrientation (getMid element.bounds) m = s ∨
    getApproximateOrientation (getMid element.bounds) m = .intersect := by
  cases s <;> simp [ALIGNMENTS] at hs
  · rw [getNewLabelMid_top element l hl] at hm
    cases Option.some.inj (Except.ok.inj hm)
    simp only [getApproximateOrientation, getOrientation, asTRBL, getMid, Point.toRect,
      Shape.bounds]
    split_ifs <;> simp_all <;> linarith
  · rw [getNewLabelMid_bottom element l hl] at hm
    cases Option.some.inj (Except.ok.inj hm)
    simp only [getApproximateOrientation, getOrientation, asTRBL, getMid, Point.toRect,
      Shape.bounds]
    split_ifs <;> simp_all <;> linarith
  · rw [getNewLabelMid_left element l hl] at hm
    cases Option.some.inj (Except.ok.inj hm)
    simp only [getApproximateOrientation, getOrientation, asTRBL, getMid, Point.toRect,
      Shape.bounds]
    split_ifs <;> simp_all <;> linarith
  · rw [getNewLabelMid_right element l hl] at hm
    cases Option.some.inj (Except.ok.inj hm)
    simp only [getApproximateOrientation, getOrientation, asTRBL, getMid, Point.toRect,
      Shape.bounds]
    split_ifs <;> simp_all <;> linarith

theorem getMid_moveShape_substract (l : Rect) (m : Point) :
    getMid (moveShape l (substract m (getMid l))) = m := by
  cases m with
  | mk mx my =>
    simp only [getMid, moveShape, substract, Point.mk.injEq]
    constructor <;> ring

theorem getMid_translate (v : Point) (r : Rect) :
    getMid (r.translate v) = (getMid r).translate v := by
  simp only [getMid, Rect.translate, Point.translate, Point.mk.injEq]
  constructor <;> ring

theorem toRect_translate (v p : Point) :
    (p.translate v).toRect = p.toRect.translate v := rfl

theorem bounds_translate (v : Point) (element : Shape) :
    (element.translate v).bounds = element.bounds.translate v := rfl

theorem getOrientation_translate (v : Point) (rect reference : Rect) (padding : ℚ) :
    getOrientation (rect.translate v) (reference.translate v) padding =
      getOrientation rect reference padding := by
  have h1 : (rect.y + v.y + rect.height + padding ≤ reference.y + v.y) ↔
      (rect.y + rect.height + padding ≤ reference.y) := by
    constructor <;> intro h <;> linarith
  have h2 : (rect.x + v.x - padding ≥ reference.x + v.x + reference.width) ↔
      (rect.x - padding ≥ reference.x + reference.width) := by
    constructor <;> intro h <;> linarith
  have h3 : (rect.y + v.y - padding ≥ reference.y + v.y + reference.height) ↔
      (rect.y - padding ≥ reference.y + reference.height) := by
    constructor <;> intro h <;> linarith
  have h4 : (rect.x + v.x + rect.width + padding ≤ reference.x + v.x) ↔
      (rect.x + rect.width + padding ≤ reference.x) := by
    constructor <;> intro h <;> linarith
  simp only [getOrientation, asTRBL, Rect.translate, h1, h2, h3, h4]

theorem getApproximateOrientation_translate (v p0 p1 : Point) :
    getApproximateOrientation (p0.translate v) (p1.translate v) =
      getApproximateOrientation p0 p1 := by
  simp only [getApproximateOrientation, toRect_translate, getOrientation_translate]

theorem jsGet_map {α β : Type} (f : α → β) (xs : List α) (i : Int) :
    jsGet (xs.map f) i = (jsGet xs i).map f := by
  unfold jsGet
  split_ifs
  · rfl
  · simp

theorem incomingWaypoint_translate (v : Point) (c : Connection) :
    incomingWaypoint (c.translate v) = (incomingWaypoint c).map (fun p => p.translate v) := by
  simp only [incomingWaypoint, incomingIndex, Connection.translate, List.length_map, jsGet_map]

theorem outgoingWaypoint_translate (v : Point) (c : Connection) :
    outgoingWaypoint (c.translate v) = (outgoingWaypoint c).map (fun p => p.translate v) := by
  simp only [outgoingWaypoint, outgoingIndex, Connection.translate, jsGet_map]

theorem decidingWaypoints_translate (v : Point) (element : Shape) :
    decidingWaypoints (element.translate v) =
      (decidingWaypoints element).map (Option.map (fun p => p.translate v)) := by
  simp only [decidingWaypoints, Shape.translate, List.nil_append, List.map_append, List.map_map]
  congr 1
  · apply List.map_congr_left
    intro c _
    exact incomingWaypoint_translate v c
  · apply List.map_congr_left
    intro c _
    exact outgoingWaypoint_translate v c

theorem mapE_classify_translate (v mid : Point) (ps : List (Option Point)) :
    mapE
      (fun point =>
        match point with
        | none => (.error .typeError : Except JsError Orientation)
        | some point => .ok (getApproximateOrientation (mid.translate v) point))
      (ps.map (Option.map (fun p => p.translate v))) =
    mapE
      (fun point =>
        match point with
        | none => (.error .typeError : Except JsError Orientation)
        | some point => .ok (getApproximateOrientation mid point)) ps := by
  induction ps with
  | nil => rfl
  | cons p ps ih =>
    cases p with
    | none => simp [mapE]
    | some q =>
      simp only [List.map_cons, Option.map_some', mapE, ih, getApproximateOrientation_translate]

theorem takenAlignments_translate (v : Point) (element : Shape) :
    takenAlignments (element.translate v) = takenAlignments element := by
  simp only [takenAlignments, decidingWaypoints_translate, bounds_translate, getMid_translate]
  exact mapE_classify_translate v _ _

theorem getNewLabelMid_translate (v : Point) (element : Shape) (s : Orientation) :
    getNewLabelMid (element.translate v) s =
      (getNewLabelMid element s).map (Option.map (fun p => p.translate v)) := by
  cases hl : element.label with
  | none =>
    have hl2 : (element.translate v).label = none := by simp [Shape.translate, hl]
    cases s <;> simp [getNewLabelMid, hl, hl2, Except.map]
  | some l =>
    have hl2 : (element.translate v).label = some (l.translate v) := by
      simp [Shape.translate, hl]
    cases s
    case top =>
      rw [getNewLabelMid_top _ _ hl2, getNewLabelMid_top _ _ hl]
      simp only [Except.map, Option.map_some', bounds_translate, getMid, asTRBL,
        Rect.translate, Point.translate, Except.ok.injEq, Option.some.injEq, Point.mk.injEq]
      constructor <;> ring
    case bottom =>
      rw [getNewLabelMid_bottom _ _ hl2, getNewLabelMid_bottom _ _ hl]
      simp only [Except.map, Option.map_some', bounds_translate, getMid, asTRBL,
        Rect.translate, Point.translate, Except.ok.injEq, Option.some.injEq, Point.mk.injEq]
      constructor <;> ring
    case left =>
      rw [getNewLabelMid_left _ _ hl2, getNewLabelMid_left _ _ hl]
      simp only [Except.map, Option.map_some', bounds_translate, getMid, asTRBL,
        Rect.translate, Point.translate, Except.ok.injEq, Option.some.injEq, Point.mk.injEq]
      constructor <;> ring
    case right =>
      rw [getNewLabelMid_right _ _ hl2, getNewLabelMid_right _ _ hl]
      simp only [Except.map, Option.map_some', bounds_translate, getMid, asTRBL,
        Rect.translate, Point.translate, Except.ok.injEq, Option.some.injEq, Point.mk.injEq]
      constructor <;> ring
    all_goals simp [getNewLabelMid, Except.map]

theorem hostFilter_translate (v : Point) (element : Shape) (hostElement : Rect)
    (a : Orientation) :
    hostFilter (element.translate v) (hostElement.translate v) a =
      hostFilter element hostElement a := by
  unfold hostFilter
  rw [getNewLabelMid_translate]
  cases h : getNewLabelMid element a with
  | error e => rfl
  | ok r =>
    cases r with
    | none => rfl
    | some m =>
      simp only [Except.map, Option.map_some', toRect_translate, getOrientation_translate]

theorem getOptimalPosition_translate (v : Point) (element : Shape) :
    getOptimalPosition (element.translate v) = getOptimalPosition element := by
  cases hl : element.label with
  | none =>
    have hl2 : (element.translate v).label = none := by simp [Shape.translate, hl]
    simp only [getOptimalPosition, hl, hl2]
  | some l =>
    have hl2 : (element.translate v).label = some (l.translate v) := by
      simp [Shape.translate, hl]
    have hf : hostFilter (element.translate v) = fun h a => hostFilter (element.translate v) h a :=
      rfl
    simp only [getOptimalPosition, hl, hl2, bounds_translate, getMid_translate,
      getApproximateOrientation_translate, takenAlignments_translate]
    cases hh : element.host with
    | none =>
      have hh2 : (element.translate v).host = none := by simp [Shape.translate, hh]
      simp only [hh2]
    | some h =>
      have hh2 : (element.translate v).host = some (h.translate v) := by
        simp [Shape.translate, hh]
      have hfe : hostFilter (element.translate v) (h.translate v) = hostFilter element h :=
        funext (fun a => hostFilter_translate v element h a)
      simp only [hh2, hfe]

theorem adjustLabelPosition_translate (v : Point) (element : Shape) (s : Orientation) :
    adjustLabelPosition (element.translate v) s =
      (adjustLabelPosition element s).map (fun mv => ⟨mv.shape.translate v, mv.delta⟩) := by
  cases hl : element.label with
  | none =>
    have hl2 : (element.translate v).label = none := by simp [Shape.translate, hl]
    simp only [adjustLabelPosition, hl, hl2, Except.map]
  | some l =>
    have hl2 : (element.translate v).label = some (l.translate v) := by
      simp [Shape.translate, hl]
    simp only [adjustLabelPosition, hl, hl2, getNewLabelMid_translate]
    cases h : getNewLabelMid element s with
    | error e => rfl
    | ok r =>
      cases r with
      | none => rfl
      | some m =>
        simp only [Except.map, Option.map_some', getMid_translate, substract, Point.translate,
          add_sub_add_right_eq_sub]

theorem incomingWaypoint_eq_reverse (c : Connection) (h : 2 ≤ c.waypoints.length) :
    incomingWaypoint c = c.waypoints.reverse.get? 1 := by
  rw [incomingWaypoint_eq c h, List.get?_eq_getElem?, List.get?_eq_getElem?,
    List.getElem?_reverse (by omega)]
  congr 1

theorem mem_takenAlignments (element : Shape) (taken : List Orientation) (a : Orientation)
    (hw : WellFormed element) (ht : takenAlignments element = .ok taken) :
    a ∈ taken ↔
      (∃ c ∈ element.incoming, ∃ p, c.waypoints.reverse.get? 1 = some p ∧
        getOrientation p.toRect (getMid element.bounds).toRect 5 = a) ∨
      (∃ c ∈ element.outgoing, ∃ p, c.waypoints.get? 1 = some p ∧
        getOrientation p.toRect (getMid element.bounds).toRect 5 = a) := by
  obtain ⟨_, htk⟩ := takenAlignments_ok_eq element taken ht
  subst htk
  rw [mem_takenSides]
  simp only [decidingWaypoints, List.nil_append, List.mem_append, List.mem_map,
    getApproximateOrientation]
  constructor
  · rintro ⟨p, (⟨c, hc, hcp⟩ | ⟨c, hc, hcp⟩), hpa⟩
    · left
      refine ⟨c, hc, p, ?_, hpa⟩
      rw [← incomingWaypoint_eq_reverse c (hw c (List.mem_append_left _ hc))]
      exact hcp
    · right
      refine ⟨c, hc, p, ?_, hpa⟩
      rw [← outgoingWaypoint_eq c]
      exact hcp
  · rintro (⟨c, hc, p, hcp, hpa⟩ | ⟨c, hc, p, hcp, hpa⟩)
    · refine ⟨p, Or.inl ⟨c, hc, ?_⟩, hpa⟩
      rw [incomingWaypoint_eq_reverse c (hw c (List.mem_append_left _ hc))]
      exact hcp
    · refine ⟨p, Or.inr ⟨c, hc, ?_⟩, hpa⟩
      rw [outgoingWaypoint_eq c]
      exact hcp

theorem wellFormed_exLabelBottom : WellFormed exLabelBottom := by
  intro c hc
  simp only [exLabelBottom, exTopLeft, List.singleton_append, List.mem_cons, List.mem_singleton,
    List.not_mem_nil, or_false] at hc
  rcases hc with rfl | rfl <;> simp

/-! ## Claims -/

/-- C1: for a shape with an external label and no host, whose label is
classified on one of the four sides and that side is taken by a connection,
`getOptimalPosition` returns the first side of the fixed order
[top, bottom, left, right] that no connection takes; it returns `undefined`
when all four sides are taken. -/
theorem getOptimalPosition_first_free_side (element : Shape) (l : Rect)
    (taken : List Orientation)
    (hl : element.label = some l)
    (hh : element.host = none)
    (ht : takenAlignments element = .ok taken)
    (ha : labelOrientation element l ∈ ALIGNMENTS)
    (hk : labelOrientation element l ∈ taken) :
    ALIGNMENTS = [.top, .bottom, .left, .right] ∧
    getOptimalPosition element = .ok (ALIGNMENTS.find? (fun a => decide (a ∉ taken))) ∧
    ((∀ a ∈ ALIGNMENTS, a ∈ taken) → getOptimalPosition element = .ok none) := by
  have h := getOptimalPosition_of_taken element l taken hl ht ha hk
  simp only [hh] at h
  refine ⟨rfl, h, fun hall => ?_⟩
  rw [h]
  congr 1
  rw [List.find?_eq_none]
  intro a ham
  simp [hall a ham]

/-- C1, witness: connections occupy top and left, the label is on the left;
the result is bottom. -/
theorem getOptimalPosition_first_free_side_witness :
    exTopLeft.label = some ⟨40, 108, 50, 20⟩ ∧ exTopLeft.host = none ∧
    takenAlignments exTopLeft = .ok [.top, .left] ∧
    labelOrientation exTopLeft ⟨40, 108, 50, 20⟩ = .left ∧
    getOptimalPosition exTopLeft = .ok (some .bottom) := by
  have h := getOptimalPosition_first_free_side exTopLeft ⟨40, 108, 50, 20⟩ [.top, .left]
    rfl rfl takenAlignments_exTopLeft
    (by rw [labelOrientation_exTopLeft]; decide)
    (by rw [labelOrientation_exTopLeft]; decide)
  exact ⟨rfl, rfl, takenAlignments_exTopLeft, labelOrientation_exTopLeft, h.2.1⟩

/-- C2: for a shape with an external label, if the side on which the label
is currently classified is not taken by any connection, `getOptimalPosition`
returns `undefined` and `checkLabelAdjustment` issues no `moveShape` call,
whatever the host. -/
theorem getOptimalPosition_none_of_label_side_free (element : Shape) (l : Rect)
    (taken : List Orientation)
    (hl : element.label = some l)
    (ht : takenAlignments element = .ok taken)
    (hfree : labelOrientation element l ∉ taken) :
    getOptimalPosition element = .ok none ∧ checkLabelAdjustment element = .ok [] :=
  ⟨getOptimalPosition_side_free element l taken hl ht hfree,
   checkLabelAdjustment_of_none element
     (getOptimalPosition_side_free element l taken hl ht hfree)⟩

/-- C2, witness: top and left are taken, the label is below the shape. -/
theorem getOptimalPosition_none_of_label_side_free_witness :
    exLabelBottom.label = some ⟨93, 140, 50, 20⟩ ∧
    takenAlignments exLabelBottom = .ok [.top, .left] ∧
    labelOrientation exLabelBottom ⟨93, 140, 50, 20⟩ = .bottom ∧
    getOptimalPosition exLabelBottom = .ok none ∧
    checkLabelAdjustment exLabelBottom = .ok [] :=
  ⟨rfl, takenAlignments_exLabelBottom, labelOrientation_exLabelBottom,
   getOptimalPosition_none_of_label_side_free exLabelBottom ⟨93, 140, 50, 20⟩ [.top, .left]
     rfl takenAlignments_exLabelBottom (by rw [labelOrientation_exLabelBottom]; decide)⟩

/-- C3: for a shape whose label center is not classified as one of top,
bottom, left, right (a diagonal or intersect), `getOptimalPosition` returns
`undefined` and no `moveShape` call is issued, regardless of the shape's
connections and host. -/
theorem getOptimalPosition_none_of_unaligned_label (element : Shape) (l : Rect)
    (hl : element.label = some l)
    (hu : labelOrientation element l ∉ ALIGNMENTS) :
    getOptimalPosition element = .ok none ∧ checkLabelAdjustment element = .ok [] :=
  ⟨getOptimalPosition_unaligned element l hl hu,
   checkLabelAdjustment_of_none element (getOptimalPosition_unaligned element l hl hu)⟩

/-- C3, witness: a label classified top-left is left alone, even next to a
degenerate connection. -/
theorem getOptimalPosition_none_of_unaligned_label_witness :
    exDiagonal.label = some ⟨40, 40, 50, 20⟩ ∧
    labelOrientation exDiagonal ⟨40, 40, 50, 20⟩ = .topLeft ∧
    getOptimalPosition exDiagonal = .ok none ∧
    checkLabelAdjustment exDiagonal = .ok [] :=
  ⟨rfl, labelOrientation_exDiagonal,
   getOptimalPosition_none_of_unaligned_label exDiagonal ⟨40, 40, 50, 20⟩ rfl
     (by rw [labelOrientation_exDiagonal]; decide)⟩

/-- C4: for a shape with a host whose label sits on a taken side,
`getOptimalPosition` returns the first side of [top, bottom, left, right]
that is not taken and whose hypothetical label center
`getNewLabelMid(shape, side)` is not classified `intersect` against the host
with padding 20; a returned side never has an intersecting center. -/
theorem getOptimalPosition_host_exclusion (element : Shape) (l hostElement : Rect)
    (taken : List Orientation)
    (hl : element.label = some l)
    (hh : element.host = some hostElement)
    (ht : takenAlignments element = .ok taken)
    (ha : labelOrientation element l ∈ ALIGNMENTS)
    (hk : labelOrientation element l ∈ taken) :
    getOptimalPosition element =
      .ok (ALIGNMENTS.find?
        (fun a => decide (a ∉ taken) && !intersectsHost element hostElement a)) ∧
    (∀ s m, getOptimalPosition element = .ok (some s) →
      getNewLabelMid element s = .ok (some m) →
      getOrientation hostElement m.toRect 20 ≠ .intersect) := by
  have h := getOptimalPosition_of_taken element l taken hl ht ha hk
  simp only [hh] at h
  refine ⟨h, fun s m hs hm => ?_⟩
  rw [h] at hs
  have hs2 := List.find?_some (Except.ok.inj hs)
  simp only [Bool.and_eq_true, Bool.not_eq_true', intersectsHost, hm] at hs2
  simpa using hs2.2

/-- C4, witness: top and left are taken, bottom would put the label on the
host, right would not; the result is right. -/
theorem getOptimalPosition_host_exclusion_witness :
    exHost.label = some ⟨40, 108, 50, 20⟩ ∧ exHost.host = some ⟨18, 118, 100, 80⟩ ∧
    takenAlignments exHost = .ok [.top, .left] ∧
    labelOrientation exHost ⟨40, 108, 50, 20⟩ = .left ∧
    intersectsHost exHost ⟨18, 118, 100, 80⟩ .bottom = true ∧
    intersectsHost exHost ⟨18, 118, 100, 80⟩ .right = false ∧
    getOptimalPosition exHost = .ok (some .right) := by
  have h := (getOptimalPosition_host_exclusion exHost ⟨40, 108, 50, 20⟩ ⟨18, 118, 100, 80⟩
    [.top, .left] rfl rfl takenAlignments_exHost
    (by rw [labelOrientation_exHost]; decide)
    (by rw [labelOrientation_exHost]; decide)).1
  refine ⟨rfl, rfl, takenAlignments_exHost, labelOrientation_exHost,
    intersectsHost_exHost_bottom, intersectsHost_exHost_right, ?_⟩
  rw [h]
  simp [ALIGNMENTS, List.find?, intersectsHost_exHost_bottom, intersectsHost_exHost_right]

/-- C5: `getNewLabelMid(shape, side)` equals the reference formulas with
clearance 0 for every shape, label and orientation: top
`(center.x, top − label.height/2)`, bottom `(center.x, bottom + label.height/2)`,
left `(left − label.width/2, center.y)`, right `(right + label.width/2, center.y)`,
and no point for any other orientation. -/
theorem getNewLabelMid_eq_reference (element : Shape) (l : Rect) (side : Orientation)
    (hl : element.label = some l) :
    getNewLabelMid element side = .ok (computeTargetCenter 0 element.bounds l side) ∧
    (side = .top → getNewLabelMid element side =
      .ok (some ⟨(getMid element.bounds).x, (asTRBL element.bounds).top - l.height / 2⟩)) ∧
    (side = .bottom → getNewLabelMid element side =
      .ok (some ⟨(getMid element.bounds).x, (asTRBL element.bounds).bottom + l.height / 2⟩)) ∧
    (side = .left → getNewLabelMid element side =
      .ok (some ⟨(asTRBL element.bounds).left - l.width / 2, (getMid element.bounds).y⟩)) ∧
    (side = .right → getNewLabelMid element side =
      .ok (some ⟨(asTRBL element.bounds).right + l.width / 2, (getMid element.bounds).y⟩)) := by
  refine ⟨?_, ?_, ?_, ?_, ?_⟩
  · cases side <;>
      simp [getNewLabelMid, computeTargetCenter, hl, ELEMENT_LABEL_DISTANCE, getMid, asTRBL,
        Shape.bounds]
  · intro hs
    rw [hs]
    exact getNewLabelMid_top element l hl
  · intro hs
    rw [hs]
    exact getNewLabelMid_bottom element l hl
  · intro hs
    rw [hs]
    exact getNewLabelMid_left element l hl
  · intro hs
    rw [hs]
    exact getNewLabelMid_right element l hl

/-- C5, witness: side top, shape top = 100, label height = 20 gives y = 90
and x = the shape's center x (118). -/
theorem getNewLabelMid_eq_reference_witness :
    exTopLeft.label = some ⟨40, 108, 50, 20⟩ ∧
    (asTRBL exTopLeft.bounds).top = 100 ∧
    (getMid exTopLeft.bounds).x = 118 ∧
    getNewLabelMid exTopLeft .top = .ok (some ⟨118, 90⟩) := by
  have h := (getNewLabelMid_eq_reference exTopLeft ⟨40, 108, 50, 20⟩ .top rfl).1
  refine ⟨rfl, rfl, ?_, ?_⟩
  · norm_num [getMid, exTopLeft, Shape.bounds]
  · rw [h]
    norm_num [computeTargetCenter, exTopLeft, Shape.bounds]

/-- C6: for every shape, label and side, the label box centered at
`getNewLabelMid(shape, side)` touches the shape's bounding box on that side
with zero gap and is centered on the shape's center along the other axis. -/
theorem getNewLabelMid_touches_shape (element : Shape) (l : Rect)
    (hl : element.label = some l) :
    (∃ m, getNewLabelMid element .top = .ok (some m) ∧
      (asTRBL (labelBoxAt m l)).bottom = (asTRBL element.bounds).top ∧
      (getMid (labelBoxAt m l)).x = (getMid element.bounds).x) ∧
    (∃ m, getNewLabelMid element .bottom = .ok (some m) ∧
      (asTRBL (labelBoxAt m l)).top = (asTRBL element.bounds).bottom ∧
      (getMid (labelBoxAt m l)).x = (getMid element.bounds).x) ∧
    (∃ m, getNewLabelMid element .left = .ok (some m) ∧
      (asTRBL (labelBoxAt m l)).right = (asTRBL element.bounds).left ∧
      (getMid (labelBoxAt m l)).y = (getMid element.bounds).y) ∧
    (∃ m, getNewLabelMid element .right = .ok (some m) ∧
      (asTRBL (labelBoxAt m l)).left = (asTRBL element.bounds).right ∧
      (getMid (labelBoxAt m l)).y = (getMid element.bounds).y) := by
  refine ⟨⟨_, getNewLabelMid_top element l hl, ?_, ?_⟩,
    ⟨_, getNewLabelMid_bottom element l hl, ?_, ?_⟩,
    ⟨_, getNewLabelMid_left element l hl, ?_, ?_⟩,
    ⟨_, getNewLabelMid_right element l hl, ?_, ?_⟩⟩ <;>
    simp only [asTRBL, labelBoxAt, getMid] <;> ring

/-- C6, witness: the 50×20 label of `exTopLeft` placed on top spans
y = 80 .. 100 and touches the shape's top edge at 100. -/
theorem getNewLabelMid_touches_shape_witness :
    exTopLeft.label = some ⟨40, 108, 50, 20⟩ ∧
    ∃ m, getNewLabelMid exTopLeft .top = .ok (some m) ∧
      (asTRBL (labelBoxAt m ⟨40, 108, 50, 20⟩)).bottom = (asTRBL exTopLeft.bounds).top ∧
      (getMid (labelBoxAt m ⟨40, 108, 50, 20⟩)).x = (getMid exTopLeft.bounds).x :=
  ⟨rfl, (getNewLabelMid_touches_shape exTopLeft ⟨40, 108, 50, 20⟩ rfl).1⟩

/-- C7: `adjustLabelPosition` hands `moveShape` the label and the vector
`delta = getNewLabelMid(shape, side) − getMid(label)`, component-wise;
translating the label by `delta`, width and height unchanged, puts the
label's center exactly at `getNewLabelMid(shape, side)`. -/
theorem adjustLabelPosition_delta (element : Shape) (l : Rect) (side : Orientation)
    (hl : element.label = some l) (hs : side ∈ ALIGNMENTS) :
    ∃ m, getNewLabelMid element side = .ok (some m) ∧
      adjustLabelPosition element side =
        .ok ⟨l, ⟨m.x - (getMid l).x, m.y - (getMid l).y⟩⟩ ∧
      getMid (moveShape l ⟨m.x - (getMid l).x, m.y - (getMid l).y⟩) = m ∧
      (moveShape l ⟨m.x - (getMid l).x, m.y - (getMid l).y⟩).width = l.width ∧
      (moveShape l ⟨m.x - (getMid l).x, m.y - (getMid l).y⟩).height = l.height := by
  obtain ⟨m, hm⟩ := getNewLabelMid_isSome element l side hl hs
  refine ⟨m, hm, ?_, ?_, rfl, rfl⟩
  · simp only [adjustLabelPosition, hl, hm, substract]
  · cases m with
    | mk mx my =>
      simp only [getMid, moveShape, Point.mk.injEq]
      constructor <;> ring

/-- C7, witness: moving the label of `exTopLeft` (center (65, 118)) to the
bottom side (target center (118, 146)) requests the delta (53, 28). -/
theorem adjustLabelPosition_delta_witness :
    exTopLeft.label = some ⟨40, 108, 50, 20⟩ ∧ Orientation.bottom ∈ ALIGNMENTS ∧
    getNewLabelMid exTopLeft .bottom = .ok (some ⟨118, 146⟩) ∧
    adjustLabelPosition exTopLeft .bottom = .ok ⟨⟨40, 108, 50, 20⟩, ⟨53, 28⟩⟩ ∧
    getMid (moveShape ⟨40, 108, 50, 20⟩ ⟨53, 28⟩) = ⟨118, 146⟩ := by
  obtain ⟨m, hm, hadj, hmid, _, _⟩ :=
    adjustLabelPosition_delta exTopLeft ⟨40, 108, 50, 20⟩ .bottom rfl (by decide)
  have hb : getNewLabelMid exTopLeft .bottom = .ok (some ⟨118, 146⟩) := by
    norm_num [getNewLabelMid, exTopLeft, ELEMENT_LABEL_DISTANCE, asTRBL, getMid, Shape.bounds]
  have hmv : m = ⟨118, 146⟩ := by
    rw [hm] at hb
    exact Option.some.inj (Except.ok.inj hb)
  subst hmv
  have hd : (⟨118 - (getMid ⟨40, 108, 50, 20⟩).x, 146 - (getMid ⟨40, 108, 50, 20⟩).y⟩ : Point)
      = ⟨53, 28⟩ := by
    norm_num [getMid]
  rw [hd] at hadj hmid
  exact ⟨rfl, by decide, hb, hadj, hmid⟩

/-- C8, counterexample: `getOptimalPosition` can fail. On `exDegenerate`
(label on the left, an aligned side; one incoming connection with a single
waypoint) the read `waypoints[length - 2]` is `undefined` and classifying it
throws a `TypeError`, so no result, neither `undefined` nor a side, is
returned. -/
theorem getOptimalPosition_fails_counterexample :
    exDegenerate.label = some ⟨40, 108, 50, 20⟩ ∧
    exDegenerate.incoming = [⟨[⟨118, 100⟩]⟩] ∧
    labelOrientation exDegenerate ⟨40, 108, 50, 20⟩ = .left ∧
    getOptimalPosition exDegenerate = .error .typeError ∧
    ¬ ∃ r, getOptimalPosition exDegenerate = .ok r := by
  have he := getOptimalPosition_exDegenerate.2
  refine ⟨rfl, rfl, ?_, he, ?_⟩
  · norm_num [labelOrientation, exDegenerate, exTopLeft, getApproximateOrientation,
      getOrientation, asTRBL, getMid, Point.toRect, Shape.bounds]
  · rintro ⟨r, hr⟩
    rw [he] at hr
    cases hr

/-- C8, amended: for a shape that has its external label and whose
connections all have at least 2 waypoints, `getOptimalPosition` does not
fail. The taken sides are the classifications (tolerance 5, against the
shape's center) of the second-to-last waypoint of every incoming and the
second waypoint of every outgoing connection; the label's orientation is the
classification of the label's center. The result is `undefined` exactly when
the label's orientation is not one of the four sides, or the label's current
side is not taken, or every side is taken or (for a shape with a host)
intersects the host; any other result is one of top, bottom, left, right,
namely the first side in priority order that is untaken and does not
intersect the host. -/
theorem getOptimalPosition_none_iff (element : Shape) (l : Rect)
    (hl : element.label = some l) (hw : WellFormed element) :
    ∃ taken r, takenAlignments element = .ok taken ∧ getOptimalPosition element = .ok r ∧
      (∀ a, a ∈ taken ↔
        (∃ c ∈ element.incoming, ∃ p, c.waypoints.reverse.get? 1 = some p ∧
          getOrientation p.toRect (getMid element.bounds).toRect 5 = a) ∨
        (∃ c ∈ element.outgoing, ∃ p, c.waypoints.get? 1 = some p ∧
          getOrientation p.toRect (getMid element.bounds).toRect 5 = a)) ∧
      labelOrientation element l =
        getOrientation (getMid l).toRect (getMid element.bounds).toRect 5 ∧
      (r = none ↔
        (labelOrientation element l ∉ ALIGNMENTS ∨ labelOrientation element l ∉ taken ∨
          ∀ a ∈ ALIGNMENTS, a ∈ taken ∨
            ∃ h, element.host = some h ∧ intersectsHost element h a = true)) ∧
      (∀ s, r = some s → s ∈ ALIGNMENTS) ∧
      (labelOrientation element l ∈ ALIGNMENTS → labelOrientation element l ∈ taken →
        r = ALIGNMENTS.find? (fun a =>
          decide (a ∉ taken) &&
            !(match element.host with
              | none => false
              | some h => intersectsHost element h a))) := by
  obtain ⟨taken, ht⟩ := takenAlignments_ok element hw
  have hmem := fun a => mem_takenAlignments element taken a hw ht
  by_cases ha : labelOrientation element l ∈ ALIGNMENTS
  swap
  · exact ⟨taken, none, ht, getOptimalPosition_unaligned element l hl ha, hmem, rfl,
      ⟨fun _ => Or.inl ha, fun _ => rfl⟩, fun s hs => (by cases hs), fun h1 _ => absurd h1 ha⟩
  by_cases hk : labelOrientation element l ∈ taken
  swap
  · exact ⟨taken, none, ht, getOptimalPosition_side_free element l taken hl ht hk, hmem, rfl,
      ⟨fun _ => Or.inr (Or.inl hk), fun _ => rfl⟩, fun s hs => (by cases hs),
      fun _ h2 => absurd h2 hk⟩
  have h := getOptimalPosition_of_taken element l taken hl ht ha hk
  cases hh : element.host with
  | none =>
    simp only [hh] at h
    refine ⟨taken, _, ht, h, hmem, rfl, ?_, fun s hs => List.mem_of_find?_eq_some hs,
      fun _ _ => by simp⟩
    rw [List.find?_eq_none]
    constructor
    · intro hn
      refine Or.inr (Or.inr (fun a ham => Or.inl ?_))
      simpa using hn a ham
    · rintro (h1 | h1 | h1)
      · exact absurd ha h1
      · exact absurd hk h1
      · intro a ham
        rcases h1 a ham with h2 | ⟨_, h2, _⟩
        · simp [h2]
        · cases h2
  | some hst =>
    simp only [hh] at h
    refine ⟨taken, _, ht, h, hmem, rfl, ?_, fun s hs => List.mem_of_find?_eq_some hs,
      fun _ _ => rfl⟩
    rw [List.find?_eq_none]
    constructor
    · intro hn
      refine Or.inr (Or.inr (fun a ham => ?_))
      have := hn a ham
      by_cases hat : a ∈ taken
      · exact Or.inl hat
      · right
        refine ⟨hst, rfl, ?_⟩
        simpa [hat] using this
    · rintro (h1 | h1 | h1)
      · exact absurd ha h1
      · exact absurd hk h1
      · intro a ham
        rcases h1 a ham with h2 | ⟨h', h2, h3⟩
        · simp [h2]
        · cases h2
          simp [h3]

/-- C8, witness: on `exTopLeft` (label and two three-point connections) the
taken sides are top and left, the label is on the left and the result is
bottom; on `exLabelBottom` the label is on the untaken bottom side and the
result is `undefined`. -/
theorem getOptimalPosition_none_iff_witness :
    exTopLeft.label = some ⟨40, 108, 50, 20⟩ ∧ WellFormed exTopLeft ∧
    takenAlignments exTopLeft = .ok [.top, .left] ∧
    labelOrientation exTopLeft ⟨40, 108, 50, 20⟩ = .left ∧
    getOptimalPosition exTopLeft = .ok (some .bottom) ∧
    exLabelBottom.label = some ⟨93, 140, 50, 20⟩ ∧ WellFormed exLabelBottom ∧
    labelOrientation exLabelBottom ⟨93, 140, 50, 20⟩ = .bottom ∧
    getOptimalPosition exLabelBottom = .ok none := by
  obtain ⟨taken, r, ht, hr, _, _, _, _, hval⟩ :=
    getOptimalPosition_none_iff exTopLeft ⟨40, 108, 50, 20⟩ rfl wellFormed_exTopLeft
  obtain ⟨taken', r', ht', hr', _, _, hiff', _, _⟩ :=
    getOptimalPosition_none_iff exLabelBottom ⟨93, 140, 50, 20⟩ rfl wellFormed_exLabelBottom
  have htk : taken = [.top, .left] := by
    rw [takenAlignments_exTopLeft] at ht
    exact (Except.ok.inj ht).symm
  have htk' : taken' = [.top, .left] := by
    rw [takenAlignments_exLabelBottom] at ht'
    exact (Except.ok.inj ht').symm
  subst htk
  subst htk'
  have hrv : r = some .bottom :=
    hval (by rw [labelOrientation_exTopLeft]; decide) (by rw [labelOrientation_exTopLeft]; decide)
  have hrv' : r' = none :=
    hiff'.mpr (Or.inr (Or.inl (by rw [labelOrientation_exLabelBottom]; decide)))
  rw [hrv] at hr
  rw [hrv'] at hr'
  exact ⟨rfl, wellFormed_exTopLeft, takenAlignments_exTopLeft, labelOrientation_exTopLeft, hr,
    rfl, wellFormed_exLabelBottom, labelOrientation_exLabelBottom, hr'⟩

/-- C9: if `getOptimalPosition` returns `undefined` for a shape, then
`checkLabelAdjustment` issues no move, the evaluation leaves the diagram
state unchanged, and evaluating the resulting state again returns
`undefined` as well. -/
theorem evaluate_none_idempotent (element : Shape)
    (h : getOptimalPosition element = .ok none) :
    checkLabelAdjustment element = .ok [] ∧
    evaluate element = .ok element ∧
    (∀ element', evaluate element = .ok element' →
      getOptimalPosition element' = .ok none ∧ evaluate element' = .ok element') := by
  have hc := checkLabelAdjustment_of_none element h
  have he : evaluate element = .ok element := by
    simp only [evaluate, hc, applyMoves, List.foldl_nil]
  refine ⟨hc, he, fun element' h' => ?_⟩
  rw [he] at h'
  cases h'
  exact ⟨h, he⟩

/-- C9, witness: `exLabelBottom`, whose label sits on a free side. -/
theorem evaluate_none_idempotent_witness :
    getOptimalPosition exLabelBottom = .ok none ∧
    checkLabelAdjustment exLabelBottom = .ok [] ∧
    evaluate exLabelBottom = .ok exLabelBottom :=
  have h : getOptimalPosition exLabelBottom = .ok none :=
    getOptimalPosition_side_free exLabelBottom ⟨93, 140, 50, 20⟩ [.top, .left] rfl
      takenAlignments_exLabelBottom (by rw [labelOrientation_exLabelBottom]; decide)
  ⟨h, (evaluate_none_idempotent exLabelBottom h).1, (evaluate_none_idempotent exLabelBottom h).2.1⟩

/-- C10, counterexample: on a connection with exactly two waypoints the
deciding waypoint is the far endpoint: the first waypoint when the
connection is incoming, the last waypoint when it is outgoing. -/
theorem deciding_waypoint_far_endpoint_counterexample :
    2 ≤ exStraight.waypoints.length ∧
    incomingIndex exStraight = 0 ∧
    incomingWaypoint exStraight = exStraight.waypoints.head? ∧
    outgoingIndex exStraight = (exStraight.waypoints.length : Int) - 1 ∧
    outgoingWaypoint exStraight = exStraight.waypoints.getLast? ∧
    ¬ (∀ c : Connection, 2 ≤ c.waypoints.length →
        incomingIndex c ≠ 0 ∧ outgoingIndex c ≠ (c.waypoints.length : Int) - 1) := by
  refine ⟨by decide, by decide, rfl, by decide, rfl, fun h => ?_⟩
  exact (h exStraight (by decide)).1 (by decide)

/-- C10, amended: for every connection with at least 2 waypoints the
deciding waypoint exists and is the second-to-last waypoint when the
connection is incoming and the second waypoint when it is outgoing; with at
least 3 waypoints its index is not the far endpoint's, with exactly 2
waypoints it is the far endpoint. -/
theorem deciding_waypoint_position (c : Connection) (h : 2 ≤ c.waypoints.length) :
    (∃ p, incomingWaypoint c = some p ∧ c.waypoints.reverse.get? 1 = some p) ∧
    (∃ p, outgoingWaypoint c = some p ∧ c.waypoints.get? 1 = some p) ∧
    (3 ≤ c.waypoints.length →
      incomingIndex c ≠ 0 ∧ outgoingIndex c ≠ (c.waypoints.length : Int) - 1) ∧
    (c.waypoints.length = 2 →
      incomingWaypoint c = c.waypoints.head? ∧
      outgoingWaypoint c = c.waypoints.getLast?) := by
  have hin := incomingWaypoint_eq c h
  have hout := outgoingWaypoint_eq c
  refine ⟨⟨c.waypoints.get ⟨c.waypoints.length - 2, by omega⟩, ?_, ?_⟩,
    ⟨c.waypoints.get ⟨1, by omega⟩, ?_, ?_⟩, ?_, ?_⟩
  · rw [hin]
    exact List.get?_eq_get _
  · rw [List.get?_eq_getElem?, List.getElem?_reverse (by omega), ← List.get?_eq_getElem?]
    exact List.get?_eq_get _
  · rw [hout]
    exact List.get?_eq_get _
  · exact List.get?_eq_get _
  · intro h3
    unfold incomingIndex outgoingIndex
    constructor <;> omega
  · intro h2
    rw [hin, hout, List.getLast?_eq_getElem?, List.head?_eq_getElem?, h2]
    simp

/-- C10, witness: on the three-point connection `exBent` both deciding
waypoints are the middle one, which is neither endpoint. -/
theorem deciding_waypoint_position_witness :
    2 ≤ exBent.waypoints.length ∧
    (∃ p, incomingWaypoint exBent = some p ∧ exBent.waypoints.reverse.get? 1 = some p) ∧
    (∃ p, outgoingWaypoint exBent = some p ∧ exBent.waypoints.get? 1 = some p) ∧
    (3 ≤ exBent.waypoints.length →
      incomingIndex exBent ≠ 0 ∧ outgoingIndex exBent ≠ (exBent.waypoints.length : Int) - 1) ∧
    (exBent.waypoints.length = 2 →
      incomingWaypoint exBent = exBent.waypoints.head? ∧
      outgoingWaypoint exBent = exBent.waypoints.getLast?) :=
  ⟨by decide, deciding_waypoint_position exBent (by decide)⟩

/-- C11: each evaluation of a shape by `checkLabelAdjustment` issues zero or
one `moveShape` call: zero when the shape has no external label or
`getOptimalPosition` returns `undefined`, exactly one when it returns a
side. A connection event evaluates the source and then the target, so it
issues at most two moves, the source's first; a `label.create` event
evaluates only the label's `labelTarget` and issues at most one. -/
theorem checkLabelAdjustment_zero_or_one_move :
    (∀ element : Shape,
      (hasExternalLabel element = false → checkLabelAdjustment element = .ok []) ∧
      (getOptimalPosition element = .ok none → checkLabelAdjustment element = .ok []) ∧
      (∀ s, hasExternalLabel element = true → getOptimalPosition element = .ok (some s) →
        ∃ m, checkLabelAdjustment element = .ok [m]) ∧
      (∀ moves, checkLabelAdjustment element = .ok moves → moves.length ≤ 1)) ∧
    (∀ (d : Diagram) (source target : Nat),
      (connectionPostExecuted d source target).moves.length ≤ 2 ∧
      ((checkLabelAdjustmentIn d source).error = none →
        (connectionPostExecuted d source target).moves =
          (checkLabelAdjustmentIn d source).moves ++
            (checkLabelAdjustmentIn (checkLabelAdjustmentIn d source).diagram target).moves) ∧
      ((checkLabelAdjustmentIn d source).error ≠ none →
        (connectionPostExecuted d source target).moves = [])) ∧
    (∀ (d : Diagram) (labelTarget : Nat),
      labelCreatePostExecuted d labelTarget = checkLabelAdjustmentIn d labelTarget ∧
      (labelCreatePostExecuted d labelTarget).moves.length ≤ 1) := by
  refine ⟨fun element => ⟨fun hn => ?_, checkLabelAdjustment_of_none element, fun s _ hs => ?_,
    checkLabelAdjustment_length element⟩, fun d source target => ?_, fun d labelTarget =>
    ⟨rfl, checkLabelAdjustmentIn_length d labelTarget⟩⟩
  · simp [checkLabelAdjustment, hn]
  · rcases checkLabelAdjustment_cases element with h1 | h1 | ⟨l, s', m, _, _, _, _, h1⟩
    · exfalso
      obtain ⟨l, taken, hl, _, _, _, hmem, _⟩ := getOptimalPosition_some element s hs
      obtain ⟨m, hm⟩ := getNewLabelMid_isSome element l s hl hmem
      have hlab : hasExternalLabel element = true := by simp [hasExternalLabel, hl]
      simp [checkLabelAdjustment, hlab, hs, adjustLabelPosition, hl, hm] at h1
    · exfalso
      obtain ⟨l, taken, hl, _, _, _, hmem, _⟩ := getOptimalPosition_some element s hs
      obtain ⟨m, hm⟩ := getNewLabelMid_isSome element l s hl hmem
      have hlab : hasExternalLabel element = true := by simp [hasExternalLabel, hl]
      simp [checkLabelAdjustment, hlab, hs, adjustLabelPosition, hl, hm] at h1
    · exact ⟨_, h1⟩
  · have h1 := checkLabelAdjustmentIn_length d source
    have h2 := checkLabelAdjustmentIn_length (checkLabelAdjustmentIn d source).diagram target
    cases he : (checkLabelAdjustmentIn d source).error with
    | none =>
      rw [connectionPostExecuted_of_ok d source target he]
      refine ⟨?_, fun _ => rfl, fun hne => absurd rfl hne⟩
      simp only [List.length_append]
      omega
    | some e =>
      have hm := checkLabelAdjustmentIn_moves_of_error d source e he
      rw [connectionPostExecuted_of_error d source target e he]
      refine ⟨?_, fun hc => Option.noConfusion hc, fun _ => hm⟩
      simp [hm]

/-- C11, witness: `exTopLeft` has a label and an optimal position, so one
move is issued; a connection event from shape 0 (`exTopLeft`) to shape 1
(`exLabelBottom`) issues the source's move and nothing for the target. -/
theorem checkLabelAdjustment_zero_or_one_move_witness :
    hasExternalLabel exTopLeft = true ∧ getOptimalPosition exTopLeft = .ok (some .bottom) ∧
    (∃ m, checkLabelAdjustment exTopLeft = .ok [m]) ∧
    (connectionPostExecuted exDiagram 0 1).moves = [⟨⟨40, 108, 50, 20⟩, ⟨53, 28⟩⟩] ∧
    (connectionPostExecuted exDiagram 0 1).moves.length ≤ 2 := by
  refine ⟨rfl, getOptimalPosition_exTopLeft,
    (checkLabelAdjustment_zero_or_one_move.1 exTopLeft).2.2.1 .bottom rfl
      getOptimalPosition_exTopLeft, ?_,
    (checkLabelAdjustment_zero_or_one_move.2.1 exDiagram 0 1).1⟩
  have h0 : exDiagram 0 = exTopLeft := rfl
  have h1 : exDiagram 1 = exLabelBottom := rfl
  simp [connectionPostExecuted, checkLabelAdjustmentIn, h0, h1, checkLabelAdjustment_exTopLeft,
    checkLabelAdjustment_exLabelBottom]

/-- C12: every `moveShape` call issued by `checkLabelAdjustment(shape)` has
`shape.label` as its target; after the evaluation the shape's bounds, host
and connections are what they were and the label is either untouched or
translated, and no other shape of the diagram is changed. -/
theorem checkLabelAdjustment_moves_own_label :
    (∀ (element : Shape) (moves : List Move), checkLabelAdjustment element = .ok moves →
      ∀ m ∈ moves, element.label = some m.shape) ∧
    (∀ element element' : Shape, evaluate element = .ok element' →
      element'.x = element.x ∧ element'.y = element.y ∧
      element'.width = element.width ∧ element'.height = element.height ∧
      element'.host = element.host ∧
      element'.incoming = element.incoming ∧ element'.outgoing = element.outgoing ∧
      (element'.label = element.label ∨
        ∃ l delta, element.label = some l ∧ element'.label = some (moveShape l delta))) ∧
    (∀ (d : Diagram) (element other : Nat), other ≠ element →
      (checkLabelAdjustmentIn d element).diagram other = d other) := by
  refine ⟨fun element moves h m hm => ?_, fun element element' h => ?_,
    fun d element other hne => ?_⟩
  · rcases checkLabelAdjustment_cases element with h1 | h1 | ⟨l, s, m', hl, _, _, _, h1⟩
    · rw [h1] at h
      cases h
    · rw [h1] at h
      cases h
      cases hm
    · rw [h1] at h
      cases h
      simp only [List.mem_singleton] at hm
      rw [hm]
      exact hl
  · rcases evaluate_cases element element' h with h1 | ⟨l, s, m, hl, _, _, h1⟩
    · subst h1
      exact ⟨rfl, rfl, rfl, rfl, rfl, rfl, rfl, Or.inl rfl⟩
    · subst h1
      exact ⟨rfl, rfl, rfl, rfl, rfl, rfl, rfl, Or.inr ⟨l, _, hl, rfl⟩⟩
  · unfold checkLabelAdjustmentIn
    cases checkLabelAdjustment (d element) with
    | error e => rfl
    | ok moves => exact Function.update_noteq hne _ _

/-- C12, witness: the one move issued for `exTopLeft` targets its label, and
in `exDiagram` shape 1 is untouched by the evaluation of shape 0. -/
theorem checkLabelAdjustment_moves_own_label_witness :
    checkLabelAdjustment exTopLeft = .ok [⟨⟨40, 108, 50, 20⟩, ⟨53, 28⟩⟩] ∧
    exTopLeft.label = some (⟨⟨40, 108, 50, 20⟩, ⟨53, 28⟩⟩ : Move).shape ∧
    (1 : Nat) ≠ 0 ∧
    (checkLabelAdjustmentIn exDiagram 0).diagram 1 = exDiagram 1 :=
  ⟨checkLabelAdjustment_exTopLeft,
   checkLabelAdjustment_moves_own_label.1 exTopLeft _ checkLabelAdjustment_exTopLeft _
     (List.mem_singleton.mpr rfl),
   by decide,
   checkLabelAdjustment_moves_own_label.2.2 exDiagram 0 1 (by decide)⟩

/-- C13: the outcome of `getOptimalPosition` depends on the connections only
through the set of sides they take: two connection lists taking the same
sides give the same result; so do a reordering of the incoming or outgoing
list, a connection moved from one list to the other that keeps its deciding
waypoint, and an added connection whose deciding waypoint classifies to an
already taken side or to no side. -/
theorem getOptimalPosition_depends_on_taken_sides :
    (∀ (element : Shape) (incoming' outgoing' : List Connection) (t1 t2 : List Orientation),
      takenAlignments element = .ok t1 →
      takenAlignments { element with incoming := incoming', outgoing := outgoing' } = .ok t2 →
      (∀ a ∈ ALIGNMENTS, (a ∈ t1 ↔ a ∈ t2)) →
      getOptimalPosition { element with incoming := incoming', outgoing := outgoing' } =
        getOptimalPosition element) ∧
    (∀ (element : Shape) (incoming' outgoing' : List Connection),
      incoming'.Perm element.incoming → outgoing'.Perm element.outgoing →
      getOptimalPosition { element with incoming := incoming', outgoing := outgoing' } =
        getOptimalPosition element) ∧
    (∀ (element : Shape) (i1 i2 : List Connection) (c : Connection),
      element.incoming = i1 ++ c :: i2 → outgoingWaypoint c = incomingWaypoint c →
      getOptimalPosition
          { element with incoming := i1 ++ i2, outgoing := c :: element.outgoing } =
        getOptimalPosition element) ∧
    (∀ (element : Shape) (o1 o2 : List Connection) (c : Connection),
      element.outgoing = o1 ++ c :: o2 → incomingWaypoint c = outgoingWaypoint c →
      getOptimalPosition
          { element with incoming := c :: element.incoming, outgoing := o1 ++ o2 } =
        getOptimalPosition element) ∧
    (∀ (element : Shape) (taken : List Orientation) (c : Connection) (p : Point),
      takenAlignments element = .ok taken → incomingWaypoint c = some p →
      (getApproximateOrientation (getMid element.bounds) p ∈ taken ∨
        getApproximateOrientation (getMid element.bounds) p ∉ ALIGNMENTS) →
      getOptimalPosition { element with incoming := c :: element.incoming } =
        getOptimalPosition element) ∧
    (∀ (element : Shape) (taken : List Orientation) (c : Connection) (p : Point),
      takenAlignments element = .ok taken → outgoingWaypoint c = some p →
      (getApproximateOrientation (getMid element.bounds) p ∈ taken ∨
        getApproximateOrientation (getMid element.bounds) p ∉ ALIGNMENTS) →
      getOptimalPosition { element with outgoing := c :: element.outgoing } =
        getOptimalPosition element) := by
  refine ⟨?_, ?_, ?_, ?_, ?_, ?_⟩
  · intro element incoming' outgoing' t1 t2 h1 h2 hset
    exact getOptimalPosition_congr_taken _ element t2 t1 rfl rfl rfl h2 h1
      (fun a ha => (hset a ha).symm)
  · intro element incoming' outgoing' hi ho
    refine getOptimalPosition_congr_perm
      { element with incoming := incoming', outgoing := outgoing' } element rfl rfl rfl ?_
    simp only [decidingWaypoints, List.nil_append]
    exact (hi.map _).append (ho.map _)
  · intro element i1 i2 c hi hw
    refine getOptimalPosition_congr_perm
      { element with incoming := i1 ++ i2, outgoing := c :: element.outgoing } element
      rfl rfl rfl ?_
    simp only [decidingWaypoints, List.nil_append, hi, List.map_append, List.map_cons, hw]
    rw [List.perm_iff_count]
    intro q
    simp only [List.count_append, List.count_cons]
    omega
  · intro element o1 o2 c ho hw
    refine getOptimalPosition_congr_perm
      { element with incoming := c :: element.incoming, outgoing := o1 ++ o2 } element
      rfl rfl rfl ?_
    simp only [decidingWaypoints, List.nil_append, ho, List.map_append, List.map_cons, hw]
    rw [List.perm_iff_count]
    intro q
    simp only [List.count_append, List.count_cons]
    omega
  · intro element taken c p ht hc ho
    refine getOptimalPosition_add_waypoint element
      { element with incoming := c :: element.incoming } taken p rfl rfl rfl ?_ ht ho
    intro q
    simp only [decidingWaypoints, List.nil_append, List.map_cons, hc, List.mem_append,
      List.mem_cons, List.cons_append]
  · intro element taken c p ht hc ho
    refine getOptimalPosition_add_waypoint element
      { element with outgoing := c :: element.outgoing } taken p rfl rfl rfl ?_ ht ho
    intro q
    simp only [decidingWaypoints, List.nil_append, List.map_cons, hc, List.mem_append,
      List.mem_cons]
    tauto

/-- C13, witness: a second connection arriving from the top, a side already
taken, leaves the result of `exTopLeft` (bottom) unchanged. -/
theorem getOptimalPosition_depends_on_taken_sides_witness :
    takenAlignments exTopLeft = .ok [.top, .left] ∧
    incomingWaypoint exBent = some ⟨118, 50⟩ ∧
    getApproximateOrientation (getMid exTopLeft.bounds) ⟨118, 50⟩ ∈ [Orientation.top, .left] ∧
    getOptimalPosition exTopTwice = .ok (some .bottom) := by
  have ho : getApproximateOrientation (getMid exTopLeft.bounds) ⟨118, 50⟩ = .top := by
    norm_num [exTopLeft, getApproximateOrientation, getOrientation, asTRBL, getMid,
      Point.toRect, Shape.bounds]
  have hm : getApproximateOrientation (getMid exTopLeft.bounds) ⟨118, 50⟩
      ∈ [Orientation.top, .left] := by
    rw [ho]
    decide
  have h := getOptimalPosition_depends_on_taken_sides.2.2.2.2.1 exTopLeft [.top, .left] exBent
    ⟨118, 50⟩ takenAlignments_exTopLeft rfl (Or.inl hm)
  exact ⟨takenAlignments_exTopLeft, rfl, hm, h.trans getOptimalPosition_exTopLeft⟩

/-- C14: for a shape that has its label and whose connections all have at
least 2 waypoints, no `undefined` value is reached: both waypoint index reads
(`length - 2` and `1`) are in bounds, `getOptimalPosition` and
`checkLabelAdjustment` return, `getNewLabelMid` is called only with one of
top, bottom, left, right (by the host filter and by `adjustLabelPosition`)
and yields a point there, and the subtraction receives two points. -/
theorem no_undefined_reached (element : Shape) (l : Rect)
    (hl : element.label = some l) (hw : WellFormed element) :
    (∀ c ∈ element.incoming,
      0 ≤ incomingIndex c ∧ incomingIndex c < (c.waypoints.length : Int) ∧
      ∃ p, incomingWaypoint c = some p) ∧
    (∀ c ∈ element.outgoing,
      0 ≤ outgoingIndex c ∧ outgoingIndex c < (c.waypoints.length : Int) ∧
      ∃ p, outgoingWaypoint c = some p) ∧
    (∃ taken, takenAlignments element = .ok taken ∧
      ∀ a ∈ freeAlignments taken, a ∈ ALIGNMENTS ∧
        (∃ m, getNewLabelMid element a = .ok (some m)) ∧
        ∀ hostElement, ∃ b, hostFilter element hostElement a = .ok b) ∧
    (∃ r, getOptimalPosition element = .ok r) ∧
    (∀ s, getOptimalPosition element = .ok (some s) →
      s ∈ ALIGNMENTS ∧
      ∃ m, getNewLabelMid element s = .ok (some m) ∧
        adjustLabelPosition element s = .ok ⟨l, substract m (getMid l)⟩) ∧
    (∃ moves, checkLabelAdjustment element = .ok moves) := by
  obtain ⟨taken, ht⟩ := takenAlignments_ok element hw
  obtain ⟨r, hr⟩ := getOptimalPosition_ok element l hl hw
  refine ⟨fun c hc => ?_, fun c hc => ?_, ⟨taken, ht, fun a ha => ?_⟩, ⟨r, hr⟩, fun s hs => ?_, ?_⟩
  · have h2 := hw c (List.mem_append_left _ hc)
    have h0 : 0 ≤ incomingIndex c := by unfold incomingIndex; omega
    have h1 : incomingIndex c < (c.waypoints.length : Int) := by unfold incomingIndex; omega
    exact ⟨h0, h1, jsGet_isSome _ _ h0 h1⟩
  · have h2 := hw c (List.mem_append_right _ hc)
    have h0 : 0 ≤ outgoingIndex c := by unfold outgoingIndex; omega
    have h1 : outgoingIndex c < (c.waypoints.length : Int) := by unfold outgoingIndex; omega
    exact ⟨h0, h1, jsGet_isSome _ _ h0 h1⟩
  · have ham := ((mem_freeAlignments taken a).mp ha).1
    exact ⟨ham, getNewLabelMid_isSome element l a hl ham,
      fun hostElement => ⟨_, hostFilter_eq element l hostElement a hl ham⟩⟩
  · obtain ⟨l', _, hl', _, _, _, hmem, _⟩ := getOptimalPosition_some element s hs
    obtain ⟨m, hm⟩ := getNewLabelMid_isSome element l s hl hmem
    refine ⟨hmem, m, hm, ?_⟩
    simp only [adjustLabelPosition, hl, hm]
  · rcases checkLabelAdjustment_cases element with h1 | h1 | ⟨_, _, _, _, _, _, _, h1⟩
    · exfalso
      cases r with
      | none =>
        rw [checkLabelAdjustment_of_none element hr] at h1
        cases h1
      | some s =>
        obtain ⟨l', _, hl', _, _, _, hmem, _⟩ := getOptimalPosition_some element s hr
        obtain ⟨m, hm⟩ := getNewLabelMid_isSome element l s hl hmem
        have hlab : hasExternalLabel element = true := by simp [hasExternalLabel, hl]
        simp [checkLabelAdjustment, hlab, hr, adjustLabelPosition, hl, hm] at h1
    · exact ⟨_, h1⟩
    · exact ⟨_, h1⟩

/-- C14, witness: `exTopLeft` has a label and two three-point connections;
its evaluation returns bottom and issues the move by (53, 28). -/
theorem no_undefined_reached_witness :
    exTopLeft.label = some ⟨40, 108, 50, 20⟩ ∧ WellFormed exTopLeft ∧
    (∃ r, getOptimalPosition exTopLeft = .ok r) ∧
    (∃ moves, checkLabelAdjustment exTopLeft = .ok moves) :=
  ⟨rfl, wellFormed_exTopLeft,
   (no_undefined_reached exTopLeft ⟨40, 108, 50, 20⟩ rfl wellFormed_exTopLeft).2.2.2.1,
   (no_undefined_reached exTopLeft ⟨40, 108, 50, 20⟩ rfl wellFormed_exTopLeft).2.2.2.2.2⟩

/-- C15: for a shape and label of non-negative width and height, if
`getOptimalPosition` returns a side `s` and the label is translated by the
delta `adjustLabelPosition` computes, all other geometry unchanged, then the
relocated label is classified on `s` or as intersecting, and
`getOptimalPosition` on the resulting state returns `undefined`: the label
is not moved a second time. -/
theorem one_step_convergence (element : Shape) (l : Rect) (s : Orientation)
    (hl : element.label = some l)
    (hew : 0 ≤ element.width) (heh : 0 ≤ element.height)
    (hlw : 0 ≤ l.width) (hlh : 0 ≤ l.height)
    (hs : getOptimalPosition element = .ok (some s)) :
    ∃ m, getNewLabelMid element s = .ok (some m) ∧
      adjustLabelPosition element s = .ok ⟨l, substract m (getMid l)⟩ ∧
      checkLabelAdjustment element = .ok [⟨l, substract m (getMid l)⟩] ∧
      evaluate element = .ok (applyMove element ⟨l, substract m (getMid l)⟩) ∧
      (applyMove element ⟨l, substract m (getMid l)⟩).label =
        some (moveShape l (substract m (getMid l))) ∧
      (labelOrientation (applyMove element ⟨l, substract m (getMid l)⟩)
          (moveShape l (substract m (getMid l))) = s ∨
        labelOrientation (applyMove element ⟨l, substract m (getMid l)⟩)
          (moveShape l (substract m (getMid l))) = .intersect) ∧
      getOptimalPosition (applyMove element ⟨l, substract m (getMid l)⟩) = .ok none ∧
      checkLabelAdjustment (applyMove element ⟨l, substract m (getMid l)⟩) = .ok [] := by
  obtain ⟨l', taken, hl', ht, _, _, hmem, hfree⟩ := getOptimalPosition_some element s hs
  obtain ⟨m, hm⟩ := getNewLabelMid_isSome element l s hl hmem
  have hadj : adjustLabelPosition element s = .ok ⟨l, substract m (getMid l)⟩ := by
    simp only [adjustLabelPosition, hl, hm]
  have hchk : checkLabelAdjustment element = .ok [⟨l, substract m (getMid l)⟩] := by
    have hlab : hasExternalLabel element = true := by simp [hasExternalLabel, hl]
    simp [checkLabelAdjustment, hlab, hs, hadj]
  have hev : evaluate element = .ok (applyMove element ⟨l, substract m (getMid l)⟩) := by
    simp only [evaluate, hchk, applyMoves, List.foldl_cons, List.foldl_nil]
  have happ := applyMove_own_label element l (substract m (getMid l)) hl
  have hlab' : (applyMove element ⟨l, substract m (getMid l)⟩).label =
      some (moveShape l (substract m (getMid l))) := by
    rw [happ]
  have hor : labelOrientation (applyMove element ⟨l, substract m (getMid l)⟩)
      (moveShape l (substract m (getMid l))) =
      getApproximateOrientation (getMid element.bounds) m := by
    rw [happ]
    simp only [labelOrientation, getMid_moveShape_substract]
    rfl
  have ht' : takenAlignments (applyMove element ⟨l, substract m (getMid l)⟩) = .ok taken := by
    rw [happ]
    exact ht
  have hcls := orientation_of_newLabelMid element l s m hl hew heh hlw hlh hmem hm
  have hnone : getOptimalPosition (applyMove element ⟨l, substract m (getMid l)⟩) = .ok none := by
    rcases hcls with h1 | h1
    · exact getOptimalPosition_side_free _ _ taken hlab' ht' (by rw [hor, h1]; exact hfree)
    · exact getOptimalPosition_unaligned _ _ hlab' (by rw [hor, h1]; decide)
  exact ⟨m, hm, hadj, hchk, hev, hlab', by rw [hor]; exact hcls, hnone,
    checkLabelAdjustment_of_none _ hnone⟩

/-- C15, witness: `exTopLeft` (36×36 shape, 50×20 label) gets bottom; after
the move the evaluation of the resulting state returns `undefined`. -/
theorem one_step_convergence_witness :
    exTopLeft.label = some ⟨40, 108, 50, 20⟩ ∧
    (0 : ℚ) ≤ exTopLeft.width ∧ (0 : ℚ) ≤ exTopLeft.height ∧
    (0 : ℚ) ≤ (⟨40, 108, 50, 20⟩ : Rect).width ∧ (0 : ℚ) ≤ (⟨40, 108, 50, 20⟩ : Rect).height ∧
    getOptimalPosition exTopLeft = .ok (some .bottom) ∧
    ∃ m, getNewLabelMid exTopLeft .bottom = .ok (some m) ∧
      getOptimalPosition
        (applyMove exTopLeft ⟨⟨40, 108, 50, 20⟩, substract m (getMid ⟨40, 108, 50, 20⟩)⟩) =
          .ok none := by
  have hw : (0 : ℚ) ≤ exTopLeft.width := by norm_num [exTopLeft]
  have hh : (0 : ℚ) ≤ exTopLeft.height := by norm_num [exTopLeft]
  have hlw : (0 : ℚ) ≤ (⟨40, 108, 50, 20⟩ : Rect).width := by norm_num
  have hlh : (0 : ℚ) ≤ (⟨40, 108, 50, 20⟩ : Rect).height := by norm_num
  obtain ⟨m, hm, _, _, _, _, _, hnone, _⟩ :=
    one_step_convergence exTopLeft ⟨40, 108, 50, 20⟩ .bottom rfl hw hh hlw hlh
      getOptimalPosition_exTopLeft
  exact ⟨rfl, hw, hh, hlw, hlh, getOptimalPosition_exTopLeft, m, hm, hnone⟩

/-- C16: translating the shape, its label, its host and every connection
waypoint by the same vector leaves the result of `getOptimalPosition`
unchanged and leaves the delta handed to `moveShape` unchanged, while
`getNewLabelMid` is shifted by exactly that vector. -/
theorem translation_invariance (v : Point) (element : Shape) :
    getOptimalPosition (element.translate v) = getOptimalPosition element ∧
    (∀ s m, getNewLabelMid element s = .ok (some m) →
      getNewLabelMid (element.translate v) s = .ok (some (m.translate v))) ∧
    (∀ s mv, adjustLabelPosition element s = .ok mv →
      adjustLabelPosition (element.translate v) s =
        .ok ⟨mv.shape.translate v, mv.delta⟩) ∧
    (∀ moves, checkLabelAdjustment element = .ok moves →
      checkLabelAdjustment (element.translate v) =
        .ok (moves.map (fun mv => ⟨mv.shape.translate v, mv.delta⟩))) := by
  refine ⟨getOptimalPosition_translate v element, fun s m hm => ?_, fun s mv hmv => ?_,
    fun moves hmoves => ?_⟩
  · rw [getNewLabelMid_translate, hm]
    rfl
  · rw [adjustLabelPosition_translate, hmv]
    rfl
  · have hlab : hasExternalLabel (element.translate v) = hasExternalLabel element := by
      cases hl : element.label <;> simp [hasExternalLabel, Shape.translate, hl]
    unfold checkLabelAdjustment at hmoves ⊢
    rw [hlab, getOptimalPosition_translate]
    cases hb : hasExternalLabel element with
    | false =>
      simp only [hb, Bool.not_false, if_true] at hmoves ⊢
      cases hmoves
      rfl
    | true =>
      simp only [hb, Bool.not_true, Bool.false_eq_true, if_false] at hmoves ⊢
      cases hg : getOptimalPosition element with
      | error e => simp [hg] at hmoves
      | ok r =>
        cases r with
        | none =>
          simp only [hg] at hmoves ⊢
          cases hmoves
          rfl
        | some s =>
          simp only [hg] at hmoves ⊢
          rw [adjustLabelPosition_translate]
          cases ha : adjustLabelPosition element s with
          | error e => simp [ha] at hmoves
          | ok mv =>
            simp only [ha] at hmoves
            cases hmoves
            rfl

/-- C16, witness: `exTopLeft` shifted by (10, −7) still gets bottom, the
target center moves from (118, 146) to (128, 139) and the requested delta
stays (53, 28). -/
theorem translation_invariance_witness :
    getOptimalPosition (exTopLeft.translate ⟨10, -7⟩) = .ok (some .bottom) ∧
    getNewLabelMid (exTopLeft.translate ⟨10, -7⟩) .bottom = .ok (some ⟨128, 139⟩) ∧
    checkLabelAdjustment (exTopLeft.translate ⟨10, -7⟩) =
      .ok [⟨⟨50, 101, 50, 20⟩, ⟨53, 28⟩⟩] := by
  have h := translation_invariance ⟨10, -7⟩ exTopLeft
  have hb : getNewLabelMid exTopLeft .bottom = .ok (some ⟨118, 146⟩) := by
    norm_num [getNewLabelMid, exTopLeft, ELEMENT_LABEL_DISTANCE, asTRBL, getMid, Shape.bounds]
  refine ⟨h.1.trans getOptimalPosition_exTopLeft, ?_, ?_⟩
  · rw [h.2.1 .bottom _ hb]
    norm_num [Point.translate]
  · rw [h.2.2.2 _ checkLabelAdjustment_exTopLeft]
    norm_num [Rect.translate]

end AdaptiveLabelPositioning
